import Mathlib

set_option maxHeartbeats 1000000

/-!
Verification of the `react-swc-suspense-tracker` SWC plugin core
(`src/lib.rs`, `src/helpers.rs`, `src/settings.rs`) against its
natural-language specification.

The Rust sources are shallowly embedded: SWC AST nodes become inductive
types (strings are `List Char`, `SyntaxContext` an opaque `Nat` with `0`
playing `SyntaxContext::empty()`), and the mutating visitor becomes
explicit state passing of the `TransformVisitor` record through a
structurally recursive traversal.
-/

namespace SwcSuspense

/-- Characters of a source-level string (Rust `String` / SWC `Atom`). -/
abbrev Chars := List Char

/-- SWC `SyntaxContext`: an opaque hygiene scope id. `0` models
`SyntaxContext::empty()` (the context produced by `Default::default()`
and `DUMMY_SP.with_ctxt(SyntaxContext::empty())`); the resolver assigns
other ids to actual binding sites. -/
abbrev Ctxt := Nat

namespace helpers

/-- Decimal digits of `n` (auxiliary, structural on a fuel argument so that
it reduces in the kernel). -/
def natCharsAux : Nat → Nat → Chars
  | 0, _ => []
  | fuel + 1, n =>
    if n < 10 then [Nat.digitChar n]
    else natCharsAux fuel (n / 10) ++ [Nat.digitChar (n % 10)]

/-- Decimal representation of a natural number, as the characters Rust's
`format!("{}", n)` would produce for a `u32`. -/
def natToChars (n : Nat) : Chars := natCharsAux (n + 1) n

/-- Rust `str::strip_prefix`: `some` of the remainder when `p` is a prefix
of `s`, otherwise `none`. -/
def stripLeading : Chars → Chars → Option Chars
  | [], s => some s
  | _ :: _, [] => none
  | p :: ps, c :: cs => if p = c then stripLeading ps cs else none

/-- Embeds `helpers::normalize_filename`: strip one leading `./` or `/`,
then turn every backslash into a forward slash. -/
def normalize_filename (filename : Chars) : Chars :=
  let cleaned :=
    (((stripLeading "./".toList filename).orElse
        (fun _ => stripLeading "/".toList filename)).getD filename)
  cleaned.map (fun c => if c = '\\' then '/' else c)

/-- Embeds `helpers::generate_boundary_id`:
`format!("{}:{}", normalize_filename(filename), line)`. -/
def generate_boundary_id (filename : Chars) (line : Nat) : Chars :=
  normalize_filename filename ++ ':' :: natToChars line

/-- Embeds `helpers::extract_line_number`: `span_lo / 80 + 1`
(the documented ~80-characters-per-line heuristic). -/
def extract_line_number (span_lo : Nat) : Nat := span_lo / 80 + 1

end helpers

/-- Constant `SUSPENSE_TRACKER_PACKAGE` from `lib.rs`. -/
def SUSPENSE_TRACKER_PACKAGE : Chars := "react-swc-suspense-tracker/context".toList

/-- Constant `SUSPENSE_TRACKER_IMPORT_NAME` from `lib.rs`. -/
def SUSPENSE_TRACKER_IMPORT_NAME : Chars := "SuspenseTrackerSWC".toList

/-- An SWC `Ident`: a spelled name plus its hygiene context. Spans are
dropped except for the element start offset kept on `JSXElement`. -/
structure Ident where
  sym : Chars
  ctxt : Ctxt
deriving DecidableEq, Repr

/-- SWC `ModuleExportName` (the pre-alias name of a named import). -/
inductive ModuleExportName where
  | ident (i : Ident)
  | str (s : Chars)
deriving DecidableEq, Repr

/-- SWC `ImportNamedSpecifier`: the locally bound ident plus the optional
external (pre-alias) name. `local_` stands for the Rust field `local`
(a Lean keyword). -/
structure ImportNamedSpecifier where
  local_ : Ident
  imported : Option ModuleExportName
deriving DecidableEq, Repr

/-- SWC `ImportSpecifier`. -/
inductive ImportSpecifier where
  | named (n : ImportNamedSpecifier)
  | defaultSpec (local_ : Ident)
  | namespaceSpec (local_ : Ident)
deriving DecidableEq, Repr

/-- SWC `ImportDecl`: source module string and specifier list. -/
structure ImportDecl where
  src : Chars
  specifiers : List ImportSpecifier
deriving DecidableEq, Repr

/-- SWC `JSXElementName`. The visitor only ever matches the `ident` form;
member-expression tags are never matched (a stated non-goal). -/
inductive JSXElementName where
  | ident (i : Ident)
  | member (obj : Chars) (prop : Chars)
deriving DecidableEq, Repr

mutual
/-- Expressions, restricted to the shapes the traversal distinguishes:
identifier references (used by the injected `component={...}` attribute),
embedded JSX elements (which the traversal descends into), and anything
else, which the visitor never inspects or changes. -/
inductive Expr where
  | ident (i : Ident)
  | jsx (e : JSXElement)
  | other (n : Nat)
deriving DecidableEq, Repr
/-- A `Vec<JSXAttrOrSpread>`, encoded as its own chain so the block stays
mutually inductive without nesting. Attribute names carry no binding
semantics in the source (they are matched or built by spelling only), so
they are plain character lists. -/
inductive AttrList where
  | nil
  | attrNoVal (name : Chars) (rest : AttrList)
  | attrLit (name : Chars) (value : Chars) (rest : AttrList)
  | attrExpr (name : Chars) (value : Expr) (rest : AttrList)
  | spread (value : Expr) (rest : AttrList)
deriving DecidableEq, Repr
/-- The `Vec<JSXElementChild>` of an element. -/
inductive ChildList where
  | nil
  | elem (e : JSXElement) (rest : ChildList)
  | text (s : Chars) (rest : ChildList)
  | exprChild (e : Expr) (rest : ChildList)
deriving DecidableEq, Repr
/-- SWC `JSXElement`: start offset (`span.lo`), opening name, opening
attributes, optional closing name, children. -/
inductive JSXElement where
  | mk (spanLo : Nat) (name : JSXElementName) (attrs : AttrList)
      (closing : Option JSXElementName) (children : ChildList)
deriving DecidableEq, Repr
end

def JSXElement.spanLo : JSXElement → Nat
  | .mk lo _ _ _ _ => lo

def JSXElement.name : JSXElement → JSXElementName
  | .mk _ n _ _ _ => n

def JSXElement.attrs : JSXElement → AttrList
  | .mk _ _ a _ _ => a

def JSXElement.closing : JSXElement → Option JSXElementName
  | .mk _ _ _ c _ => c

def JSXElement.children : JSXElement → ChildList
  | .mk _ _ _ _ c => c

/-- Concatenation of attribute chains (`Vec::push` at the end is
`append` of a singleton). -/
def AttrList.append : AttrList → AttrList → AttrList
  | .nil, ys => ys
  | .attrNoVal n r, ys => .attrNoVal n (r.append ys)
  | .attrLit n v r, ys => .attrLit n v (r.append ys)
  | .attrExpr n v r, ys => .attrExpr n v (r.append ys)
  | .spread v r, ys => .spread v (r.append ys)

/-- Number of attributes in a chain. -/
def AttrList.length : AttrList → Nat
  | .nil => 0
  | .attrNoVal _ r => r.length + 1
  | .attrLit _ _ r => r.length + 1
  | .attrExpr _ _ r => r.length + 1
  | .spread _ r => r.length + 1

/-- A module-level statement: anything that is not an import. Only the
expressions inside it are relevant to the traversal. -/
inductive Stmt where
  | expr (e : Expr)
  | other (n : Nat)
deriving DecidableEq, Repr

/-- An SWC `ModuleItem`. -/
inductive ModuleItem where
  | importDecl (d : ImportDecl)
  | stmt (s : Stmt)
deriving DecidableEq, Repr

/-- The target environment (`settings.rs`). -/
inductive Environment where
  | development
  | test
  | production
deriving DecidableEq, Repr

/-- Embeds `TryFrom<&str> for Environment`, with `none` for the error
case. -/
def Environment.ofString (value : Chars) : Option Environment :=
  if value = "development".toList then some .development
  else if value = "test".toList then some .test
  else if value = "production".toList then some .production
  else none

/-- A `CustomBoundarySetting` as `lib.rs` consumes it: the configured
component name and its source package. `from_` stands for the Rust field
`from` (a Lean keyword). -/
structure CustomBoundarySetting where
  component : Chars
  from_ : Chars
deriving DecidableEq, Repr

/-- The plugin `Config` as `lib.rs` consumes it. The source iterates the
`custom_boundaries` `HashMap` while discarding the keys
(`for (_key, boundary_setting) in ...`), so the map is embedded as the
list of its values in iteration order; distinct orders model the
unspecified `HashMap` iteration orders. -/
structure Config where
  enabled : Option Bool
  custom_boundaries : Option (List CustomBoundarySetting)
deriving DecidableEq, Repr

/-- Per-call `Context` (`settings.rs`). -/
structure Context where
  env_name : Environment
  filename : Chars
deriving DecidableEq, Repr

/-- The `TransformVisitor` state (`lib.rs`). `HashSet<SyntaxContext>`
fields are lists used only through membership. -/
structure TransformVisitor where
  config : Config
  context : Context
  has_suspense_elements : Bool
  suspense_tracker_imported : Bool
  react_suspense_contexts : List Ctxt
  react_import_position : Option Nat
  error_boundary_contexts : List Ctxt
  custom_boundary_config : Option CustomBoundarySetting
deriving DecidableEq, Repr

/-- Embeds `TransformVisitor::new`. -/
def TransformVisitor.new (config : Config) (context : Context) : TransformVisitor :=
  { config := config
    context := context
    has_suspense_elements := false
    suspense_tracker_imported := false
    react_suspense_contexts := []
    react_import_position := none
    error_boundary_contexts := []
    custom_boundary_config := none }

/-- `HashSet::insert`: membership-preserving insertion. -/
def insertCtxt (c : Ctxt) (s : List Ctxt) : List Ctxt :=
  if c ∈ s then s else c :: s

/-- Embeds `TransformVisitor::generate_boundary_id`: the helper applied to
`format!("{}-{}", filename, name)` and the extracted line number. -/
def TransformVisitor.generate_boundary_id (v : TransformVisitor) (name : Chars)
    (span_lo : Nat) : Chars :=
  helpers.generate_boundary_id (v.context.filename ++ '-' :: name)
    (helpers.extract_line_number span_lo)

/-- Embeds `TransformVisitor::create_suspense_tracker_import`: a named
specifier `SuspenseTrackerSWC` (empty context) from the tracker package. -/
def create_suspense_tracker_import : ModuleItem :=
  .importDecl
    { src := SUSPENSE_TRACKER_PACKAGE
      specifiers := [.named { local_ := ⟨SUSPENSE_TRACKER_IMPORT_NAME, 0⟩, imported := none }] }

/-- The external name of a named specifier: the pre-alias `imported` name
when present, else the local name (the `unwrap_or` chain appearing in both
`process_react_import` and `process_custom_boundary_imports`). -/
def externalName (n : ImportNamedSpecifier) : Chars :=
  match n.imported with
  | some (.ident i) => i.sym
  | some (.str s) => s
  | none => n.local_.sym

/-- The `retain` loop inside `process_react_import`: walks the specifiers
in order; a named specifier whose external name is `Suspense` has its
local context recorded and is dropped, everything else is kept. Returns
the new state, the kept specifiers, and the `found_suspense` flag. -/
def processReactSpecifiers (v : TransformVisitor) :
    List ImportSpecifier → TransformVisitor × List ImportSpecifier × Bool
  | [] => (v, [], false)
  | spec :: rest =>
    match spec with
    | .named n =>
      if externalName n = "Suspense".toList then
        let v1 := { v with react_suspense_contexts := insertCtxt n.local_.ctxt v.react_suspense_contexts }
        let p := processReactSpecifiers v1 rest
        (p.1, p.2.1, true)
      else
        let p := processReactSpecifiers v rest
        (p.1, spec :: p.2.1, p.2.2)
    | _ =>
      let p := processReactSpecifiers v rest
      (p.1, spec :: p.2.1, p.2.2)

/-- Embeds `TransformVisitor::process_react_import`. -/
def process_react_import (v : TransformVisitor) (d : ImportDecl) :
    TransformVisitor × ImportDecl × Bool :=
  if d.src ≠ "react".toList then (v, d, false)
  else
    let p := processReactSpecifiers v d.specifiers
    (p.1, { d with specifiers := p.2.1 }, p.2.2)

/-- Embeds `TransformVisitor::is_react_suspense`: the tag must be an
identifier spelled `Suspense` whose context is one of the recorded
react-Suspense contexts. -/
def TransformVisitor.is_react_suspense (v : TransformVisitor) (e : JSXElement) : Bool :=
  match e.name with
  | .ident i =>
    if i.sym = "Suspense".toList then decide (i.ctxt ∈ v.react_suspense_contexts)
    else false
  | _ => false

/-- One specifier step of the custom-boundary scan: on a name match,
record the local context and store the setting when none is stored yet.
Namespace imports are skipped, as in the source. -/
def processCustomSpecifier (s : CustomBoundarySetting) (v : TransformVisitor)
    (spec : ImportSpecifier) : TransformVisitor :=
  match spec with
  | .named n =>
    if externalName n = s.component then
      let v1 := { v with error_boundary_contexts := insertCtxt n.local_.ctxt v.error_boundary_contexts }
      if v1.custom_boundary_config.isNone then
        { v1 with custom_boundary_config := some s }
      else v1
    else v
  | .defaultSpec l =>
    if l.sym = s.component then
      let v1 := { v with error_boundary_contexts := insertCtxt l.ctxt v.error_boundary_contexts }
      if v1.custom_boundary_config.isNone then
        { v1 with custom_boundary_config := some s }
      else v1
    else v
  | .namespaceSpec _ => v

/-- One configured-boundary step of the custom-boundary scan: only the
imports whose source equals the setting's `from` are examined. -/
def processCustomSetting (d : ImportDecl) (v : TransformVisitor)
    (s : CustomBoundarySetting) : TransformVisitor :=
  if s.from_ = d.src then d.specifiers.foldl (processCustomSpecifier s) v
  else v

/-- Embeds `TransformVisitor::process_custom_boundary_imports`: iterate
the configured boundary settings (in map-iteration order) over one import
declaration. -/
def process_custom_boundary_imports (v : TransformVisitor) (d : ImportDecl) :
    TransformVisitor :=
  match v.config.custom_boundaries with
  | none => v
  | some m => m.foldl (processCustomSetting d) v

mutual
/-- Default traversal through an expression; only embedded JSX elements
are inspected. -/
def visitExpr (v : TransformVisitor) : Expr → TransformVisitor × Expr
  | .ident i => (v, .ident i)
  | .jsx e =>
    let p := visitElem v e
    (p.1, .jsx p.2)
  | .other n => (v, .other n)
/-- Default traversal through an attribute chain. -/
def visitAttrs (v : TransformVisitor) : AttrList → TransformVisitor × AttrList
  | .nil => (v, .nil)
  | .attrNoVal n r =>
    let p := visitAttrs v r
    (p.1, .attrNoVal n p.2)
  | .attrLit n s r =>
    let p := visitAttrs v r
    (p.1, .attrLit n s p.2)
  | .attrExpr n e r =>
    let pe := visitExpr v e
    let p := visitAttrs pe.1 r
    (p.1, .attrExpr n pe.2 p.2)
  | .spread e r =>
    let pe := visitExpr v e
    let p := visitAttrs pe.1 r
    (p.1, .spread pe.2 p.2)
/-- Default traversal through a child list. -/
def visitChildren (v : TransformVisitor) : ChildList → TransformVisitor × ChildList
  | .nil => (v, .nil)
  | .elem e r =>
    let pe := visitElem v e
    let p := visitChildren pe.1 r
    (p.1, .elem pe.2 p.2)
  | .text s r =>
    let p := visitChildren v r
    (p.1, .text s p.2)
  | .exprChild e r =>
    let pe := visitExpr v e
    let p := visitChildren pe.1 r
    (p.1, .exprChild pe.2 p.2)
/-- Embeds `visit_mut_jsx_element` (`lib.rs` 183-277). Step 1: when a
custom boundary setting is stored and the tag's context is a recorded
error-boundary context, rename both tags to the module-scoped
`CustomBoundary` and push `component={originalIdent}` then `id="..."`.
Step 2: otherwise, when `is_react_suspense` holds, set the
`has_suspense_elements` flag, rename both tags to the module-scoped
`SuspenseTrackerSWC` and push `id="..."`. Finally the source walks the
mutated element's children; the pushed attributes (a bare identifier and
a string literal) contain no JSX and are fixed by that walk, so the
embedding walks the original attributes and appends the pushed ones to
the result (see `visitAttrs_append` and `visitAttrs_pushed` below, which
make this equivalence precise). -/
def visitElem (v : TransformVisitor) : JSXElement → TransformVisitor × JSXElement
  | .mk lo name attrs closing children =>
    match
      (match v.custom_boundary_config, name with
        | some _, .ident i =>
          if i.ctxt ∈ v.error_boundary_contexts then
            (JSXElementName.ident ⟨"CustomBoundary".toList, 0⟩,
              AttrList.attrExpr "component".toList (.ident i)
                (.attrLit "id".toList (v.generate_boundary_id i.sym lo) .nil),
              closing.map (fun _ => JSXElementName.ident ⟨"CustomBoundary".toList, 0⟩),
              true)
          else (name, AttrList.nil, closing, false)
        | _, _ => (name, AttrList.nil, closing, false)) with
    | (name1, pushed1, closing1, transformed) =>
      if !transformed &&
          v.is_react_suspense (.mk lo name1 (attrs.append pushed1) closing1 children) then
        let v1 := { v with has_suspense_elements := true }
        let tr : Ident := ⟨SUSPENSE_TRACKER_IMPORT_NAME, 0⟩
        let pushed2 := pushed1.append
          (.attrLit "id".toList (v1.generate_boundary_id "Suspense".toList lo) .nil)
        let pa := visitAttrs v1 attrs
        let pc := visitChildren pa.1 children
        (pc.1, .mk lo (.ident tr) (pa.2.append pushed2) (closing1.map (fun _ => .ident tr)) pc.2)
      else
        let pa := visitAttrs v attrs
        let pc := visitChildren pa.1 children
        (pc.1, .mk lo name1 (pa.2.append pushed1) closing1 pc.2)
end

/-- Default traversal through a statement. -/
def visitStmt (v : TransformVisitor) : Stmt → TransformVisitor × Stmt
  | .expr e =>
    let p := visitExpr v e
    (p.1, .expr p.2)
  | .other n => (v, .other n)

/-- The second pass, `module_items.visit_mut_children_with(self)`: imports
contain no JSX, so only statements are affected. -/
def visitItems (v : TransformVisitor) : List ModuleItem → TransformVisitor × List ModuleItem
  | [] => (v, [])
  | .importDecl d :: rest =>
    let p := visitItems v rest
    (p.1, .importDecl d :: p.2)
  | .stmt s :: rest =>
    let ps := visitStmt v s
    let p := visitItems ps.1 rest
    (p.1, .stmt ps.2 :: p.2)

/-- The first pass (`lib.rs` 148-158): for each import, record the
react import position and strip/record react Suspense specifiers when
the source is `react`, then scan the (possibly mutated) import for
custom boundaries. -/
def processImports (v : TransformVisitor) (idx : Nat) :
    List ModuleItem → TransformVisitor × List ModuleItem
  | [] => (v, [])
  | .importDecl d :: rest =>
    let p1 :=
      if d.src = "react".toList then
        let v0 := { v with react_import_position := some idx }
        let pr := process_react_import v0 d
        (pr.1, pr.2.1)
      else (v, d)
    let v2 := process_custom_boundary_imports p1.1 p1.2
    let p := processImports v2 (idx + 1) rest
    (p.1, .importDecl p1.2 :: p.2)
  | .stmt s :: rest =>
    let p := processImports v (idx + 1) rest
    (p.1, .stmt s :: p.2)

/-- Embeds `is_import_decl`. -/
def is_import_decl : ModuleItem → Option Bool
  | .importDecl _ => some true
  | .stmt _ => none

/-- Embeds `get_first_import_index`. -/
def get_first_import_index (module_items : List ModuleItem) : Option Nat :=
  module_items.findIdx? (fun it => (is_import_decl it).getD false)

/-- Rust `Vec::insert` (total: an out-of-range index appends, which the
source never reaches since every computed index is at most the length). -/
def insertAt {α : Type} : Nat → α → List α → List α
  | 0, a, l => a :: l
  | _ + 1, a, [] => [a]
  | n + 1, a, x :: l => x :: insertAt n a l

/-- Embeds `visit_mut_module_items` (`lib.rs` 134-181): the enable gate,
then the import pass, the JSX pass (only when some context was recorded),
and the tracker-import insertion. -/
def visit_mut_module_items (v : TransformVisitor) (module_items : List ModuleItem) :
    TransformVisitor × List ModuleItem :=
  if !(v.config.enabled.getD (decide (v.context.env_name ≠ Environment.development))) then
    (v, module_items)
  else
    let p1 := processImports v 0 module_items
    let p2 :=
      if p1.1.react_suspense_contexts ≠ [] ∨ p1.1.error_boundary_contexts ≠ [] then
        visitItems p1.1 p1.2
      else p1
    if p2.1.has_suspense_elements && !p2.1.suspense_tracker_imported then
      let insert_index :=
        ((p2.1.react_import_position.map (· + 1)).orElse
          (fun _ => get_first_import_index p2.2)).getD 0
      ({ p2.1 with suspense_tracker_imported := true },
        insertAt insert_index create_suspense_tracker_import p2.2)
    else p2

/-- One whole plugin call on one module: `process_transform` with an
already-parsed configuration and context. -/
def transform (config : Config) (context : Context) (items : List ModuleItem) :
    List ModuleItem :=
  (visit_mut_module_items (TransformVisitor.new config context) items).2

/-! ### Derived observations of the transform

The definitions below do not add behaviour; they name the matching
conditions and the first-pass effects of the code so that theorems can
quantify over them. -/

/-- The custom-boundary match condition of `visit_mut_jsx_element`: a
setting is stored and the tag is an identifier whose context is recorded.
Parametrized by the raw visitor fields it reads. -/
def customTagPred (stored : Bool) (ebCtxts : List Ctxt) (name : JSXElementName) : Bool :=
  stored && (match name with
    | .ident i => decide (i.ctxt ∈ ebCtxts)
    | _ => false)

/-- The react-Suspense match condition of `is_react_suspense`,
parametrized by the recorded contexts. -/
def suspTagPred (rcCtxts : List Ctxt) (name : JSXElementName) : Bool :=
  match name with
  | .ident i => decide (i.sym = "Suspense".toList) && decide (i.ctxt ∈ rcCtxts)
  | _ => false

/-- A tag matches (and would be rewritten) when either condition holds. -/
def matchPred (stored : Bool) (ebCtxts rcCtxts : List Ctxt) (name : JSXElementName) : Bool :=
  customTagPred stored ebCtxts name || suspTagPred rcCtxts name

mutual
/-- Does some element tag inside the expression satisfy `p`? -/
def exprAnyTag (p : JSXElementName → Bool) : Expr → Bool
  | .ident _ => false
  | .jsx e => elemAnyTag p e
  | .other _ => false
/-- Does some element tag inside the attribute chain satisfy `p`? -/
def attrsAnyTag (p : JSXElementName → Bool) : AttrList → Bool
  | .nil => false
  | .attrNoVal _ r => attrsAnyTag p r
  | .attrLit _ _ r => attrsAnyTag p r
  | .attrExpr _ e r => exprAnyTag p e || attrsAnyTag p r
  | .spread e r => exprAnyTag p e || attrsAnyTag p r
/-- Does some element tag inside the child list satisfy `p`? -/
def childrenAnyTag (p : JSXElementName → Bool) : ChildList → Bool
  | .nil => false
  | .elem e r => elemAnyTag p e || childrenAnyTag p r
  | .text _ r => childrenAnyTag p r
  | .exprChild e r => exprAnyTag p e || childrenAnyTag p r
/-- Does some element tag inside the element (itself included) satisfy
`p`? -/
def elemAnyTag (p : JSXElementName → Bool) : JSXElement → Bool
  | .mk _ name attrs _ children =>
    p name || attrsAnyTag p attrs || childrenAnyTag p children
end

/-- Does some element tag inside the statement satisfy `p`? -/
def stmtAnyTag (p : JSXElementName → Bool) : Stmt → Bool
  | .expr e => exprAnyTag p e
  | .other _ => false

/-- Does some element tag inside the module satisfy `p`? -/
def itemsAnyTag (p : JSXElementName → Bool) : List ModuleItem → Bool
  | [] => false
  | .importDecl _ :: rest => itemsAnyTag p rest
  | .stmt s :: rest => stmtAnyTag p s || itemsAnyTag p rest

/-- The specifier list after the `retain` of `process_react_import`:
named specifiers whose external name is `Suspense` are gone. -/
def strippedSpecs : List ImportSpecifier → List ImportSpecifier
  | [] => []
  | spec :: rest =>
    match spec with
    | .named n =>
      if externalName n = "Suspense".toList then strippedSpecs rest
      else spec :: strippedSpecs rest
    | _ => spec :: strippedSpecs rest

/-- Does the specifier list contain a named `Suspense` import? -/
def hasSuspSpecifier : List ImportSpecifier → Bool
  | [] => false
  | spec :: rest =>
    match spec with
    | .named n =>
      if externalName n = "Suspense".toList then true else hasSuspSpecifier rest
    | _ => hasSuspSpecifier rest

/-- The react-Suspense contexts collected by the `retain` of
`process_react_import`, starting from `acc`. -/
def reactCtxtsAfter (acc : List Ctxt) : List ImportSpecifier → List Ctxt
  | [] => acc
  | spec :: rest =>
    match spec with
    | .named n =>
      if externalName n = "Suspense".toList then
        reactCtxtsAfter (insertCtxt n.local_.ctxt acc) rest
      else reactCtxtsAfter acc rest
    | _ => reactCtxtsAfter acc rest

/-- The effect of the first pass on one import declaration: react imports
lose their `Suspense` specifiers, all others are untouched. -/
def stripDecl (d : ImportDecl) : ImportDecl :=
  if d.src = "react".toList then { d with specifiers := strippedSpecs d.specifiers }
  else d

/-- The effect of the first pass on one module item. -/
def stripItem : ModuleItem → ModuleItem
  | .importDecl d => .importDecl (stripDecl d)
  | .stmt s => .stmt s

/-- The import declarations of a module, in order. -/
def importDecls : List ModuleItem → List ImportDecl
  | [] => []
  | .importDecl d :: rest => d :: importDecls rest
  | .stmt _ :: rest => importDecls rest

/-- The react-Suspense contexts collected by the first pass over a list
of import declarations. -/
def reactFold (acc : List Ctxt) : List ImportDecl → List Ctxt
  | [] => acc
  | d :: rest =>
    if d.src = "react".toList then reactFold (reactCtxtsAfter acc d.specifiers) rest
    else reactFold acc rest

/-- The react import position after the first pass: the index of the last
react import, if any. -/
def posFold (p : Option Nat) (idx : Nat) : List ModuleItem → Option Nat
  | [] => p
  | .importDecl d :: rest =>
    posFold (if d.src = "react".toList then some idx else p) (idx + 1) rest
  | .stmt _ :: rest => posFold p (idx + 1) rest

/-- The custom-boundary part of the visitor state: recorded contexts and
the stored setting. -/
abbrev CustomState := List Ctxt × Option CustomBoundarySetting

/-- Mirror of `processCustomSpecifier` on the custom-boundary state. -/
def customSpecStep (s : CustomBoundarySetting) (st : CustomState)
    (spec : ImportSpecifier) : CustomState :=
  match spec with
  | .named n =>
    if externalName n = s.component then
      (insertCtxt n.local_.ctxt st.1, if st.2.isNone then some s else st.2)
    else st
  | .defaultSpec l =>
    if l.sym = s.component then
      (insertCtxt l.ctxt st.1, if st.2.isNone then some s else st.2)
    else st
  | .namespaceSpec _ => st

/-- Mirror of `processCustomSetting` on the custom-boundary state. -/
def customSettingStep (d : ImportDecl) (st : CustomState)
    (s : CustomBoundarySetting) : CustomState :=
  if s.from_ = d.src then d.specifiers.foldl (customSpecStep s) st else st

/-- Mirror of `process_custom_boundary_imports` on the custom-boundary
state. -/
def customDeclStep (cbs : Option (List CustomBoundarySetting)) (st : CustomState)
    (d : ImportDecl) : CustomState :=
  match cbs with
  | none => st
  | some m => m.foldl (customSettingStep d) st

/-- The custom-boundary state after the first pass over a list of import
declarations. -/
def customFold (cbs : Option (List CustomBoundarySetting)) (st : CustomState)
    (decls : List ImportDecl) : CustomState :=
  decls.foldl (customDeclStep cbs) st

/-- Number of items equal to the injected tracker import. -/
def countTracker (items : List ModuleItem) : Nat :=
  items.countP (fun x => decide (x = create_suspense_tracker_import))

/-- The local identifier context of an import specifier. -/
def specLocalCtxt : ImportSpecifier → Ctxt
  | .named n => n.local_.ctxt
  | .defaultSpec l => l.ctxt
  | .namespaceSpec l => l.ctxt

/-- The local identifier contexts of a list of import declarations. -/
def declsLocalCtxts : List ImportDecl → List Ctxt
  | [] => []
  | d :: rest => d.specifiers.map specLocalCtxt ++ declsLocalCtxts rest

/-- All import bindings of the module carry a non-empty syntax context,
which is what the SWC resolver guarantees for binding sites before the
plugin runs. -/
def hygienicImports (items : List ModuleItem) : Prop :=
  ∀ c ∈ declsLocalCtxts (importDecls items), c ≠ 0

/-- No configured custom boundary is sourced from the tracker package
itself (a configuration that would make the injected import targetable). -/
def trackerFreeConfig (config : Config) : Prop :=
  match config.custom_boundaries with
  | none => True
  | some m => ∀ s ∈ m, s.from_ ≠ SUSPENSE_TRACKER_PACKAGE

/-- The visitor `v` with its configured boundary list replaced by `m`
(auxiliary, used to state iteration-order questions). -/
def withBoundaries (v : TransformVisitor) (m : List CustomBoundarySetting) :
    TransformVisitor :=
  { v with config := ⟨v.config.enabled, some m⟩ }

/-- The condition under which `process_custom_boundary_imports` matches a
configured setting against one specifier of an import with source `src`:
the setting's `from` equals the import source and its component name
equals the specifier's external name (named) or local name (default);
namespace specifiers never match. -/
def settingMatchesSpec (src : Chars) (spec : ImportSpecifier)
    (s : CustomBoundarySetting) : Prop :=
  match spec with
  | .named n => s.from_ = src ∧ externalName n = s.component
  | .defaultSpec l => s.from_ = src ∧ l.sym = s.component
  | .namespaceSpec _ => False

/-- First JSX element appearing as a top-level expression statement. -/
def firstJsx : List ModuleItem → Option JSXElement
  | [] => none
  | .stmt (.expr (.jsx e)) :: _ => some e
  | _ :: rest => firstJsx rest

/-- Values of all string-literal `id` attributes in a chain. -/
def idLitValues : AttrList → List Chars
  | .nil => []
  | .attrNoVal _ r => idLitValues r
  | .attrLit n v r => if n = "id".toList then v :: idLitValues r else idLitValues r
  | .attrExpr _ _ r => idLitValues r
  | .spread _ r => idLitValues r

/-! ### Concrete fixtures used by witnesses and counterexamples -/

/-- The filename used by the repository's own tests. -/
def fixtureFilename : Chars := "my/file.tsx".toList

def devContext : Context := ⟨.development, fixtureFilename⟩

def prodContext : Context := ⟨.production, fixtureFilename⟩

/-- Configuration with the gate unset. -/
def cfgUnset : Config := ⟨none, none⟩

/-- Configuration explicitly enabled. -/
def cfgTrue : Config := ⟨some true, none⟩

/-- Configuration explicitly disabled. -/
def cfgFalse : Config := ⟨some false, none⟩

/-- Fixture: `import { Suspense } from "react"` with local context 1. -/
def reactSuspImport : ModuleItem :=
  .importDecl ⟨"react".toList, [.named ⟨⟨"Suspense".toList, 1⟩, none⟩]⟩

/-- Fixture: a `<Suspense>...</Suspense>` element bound to context 1,
starting at offset 160 (line 3 under the 80-column heuristic). -/
def suspElem : JSXElement :=
  .mk 160 (.ident ⟨"Suspense".toList, 1⟩) .nil (some (.ident ⟨"Suspense".toList, 1⟩)) .nil

/-- Fixture module: the react import plus one Suspense element. -/
def demoModule : List ModuleItem := [reactSuspImport, .stmt (.expr (.jsx suspElem))]

/-- Fixture: `import { Suspense, useEffect } from "react"` (contexts 1
and 2) followed by a statement with no JSX at all. -/
def unusedSuspenseModule : List ModuleItem :=
  [.importDecl ⟨"react".toList,
    [.named ⟨⟨"Suspense".toList, 1⟩, none⟩, .named ⟨⟨"useEffect".toList, 2⟩, none⟩]⟩,
    .stmt (.other 0)]

/-- Fixture: `import { Suspense as MySuspense } from "react"`. -/
def aliasedImport : ModuleItem :=
  .importDecl ⟨"react".toList,
    [.named ⟨⟨"MySuspense".toList, 1⟩, some (.ident ⟨"Suspense".toList, 0⟩)⟩]⟩

/-- Fixture: a `<MySuspense>...</MySuspense>` element bound to the
aliased import's context. -/
def aliasedElem : JSXElement :=
  .mk 80 (.ident ⟨"MySuspense".toList, 1⟩) .nil (some (.ident ⟨"MySuspense".toList, 1⟩)) .nil

/-- Fixture module with the aliased import and its element. -/
def aliasedModule : List ModuleItem := [aliasedImport, .stmt (.expr (.jsx aliasedElem))]

/-- Configuration with one custom boundary
`{ component: MyErrorBoundary, from: my-error-lib }`. -/
def cfgCustom : Config :=
  ⟨some true, some [⟨"MyErrorBoundary".toList, "my-error-lib".toList⟩]⟩

/-- Fixture: `import { MyErrorBoundary } from "my-error-lib"`. -/
def customImport : ModuleItem :=
  .importDecl ⟨"my-error-lib".toList, [.named ⟨⟨"MyErrorBoundary".toList, 1⟩, none⟩]⟩

/-- Fixture: a `<MyErrorBoundary>...</MyErrorBoundary>` element bound to
context 1, starting at offset 240 (line 4). -/
def customElem : JSXElement :=
  .mk 240 (.ident ⟨"MyErrorBoundary".toList, 1⟩) .nil
    (some (.ident ⟨"MyErrorBoundary".toList, 1⟩)) .nil

/-- Fixture module with only the custom boundary import and element. -/
def customModule : List ModuleItem := [customImport, .stmt (.expr (.jsx customElem))]

/-- Fixture: `import { MyErrorBoundary as CustomEB } from "my-error-lib"`. -/
def aliasedCustomImport : ModuleItem :=
  .importDecl ⟨"my-error-lib".toList,
    [.named ⟨⟨"CustomEB".toList, 1⟩, some (.ident ⟨"MyErrorBoundary".toList, 0⟩)⟩]⟩

/-- Fixture: a `<CustomEB>...</CustomEB>` element bound to context 1, at
offset 240 (line 4). -/
def aliasedCustomElem : JSXElement :=
  .mk 240 (.ident ⟨"CustomEB".toList, 1⟩) .nil (some (.ident ⟨"CustomEB".toList, 1⟩)) .nil

/-- Fixture module with the aliased custom boundary import and element. -/
def aliasedCustomModule : List ModuleItem :=
  [aliasedCustomImport, .stmt (.expr (.jsx aliasedCustomElem))]

/-! ### Basic structural lemmas -/

theorem AttrList.append_nil : ∀ (a : AttrList), a.append .nil = a
  | .nil => rfl
  | .attrNoVal n r => by rw [AttrList.append, AttrList.append_nil r]
  | .attrLit n v r => by rw [AttrList.append, AttrList.append_nil r]
  | .attrExpr n v r => by rw [AttrList.append, AttrList.append_nil r]
  | .spread v r => by rw [AttrList.append, AttrList.append_nil r]

/-- The name-level reading of `is_react_suspense`. -/
theorem is_react_suspense_eq (v : TransformVisitor) (lo : Nat) (name : JSXElementName)
    (attrs : AttrList) (closing : Option JSXElementName) (children : ChildList) :
    v.is_react_suspense (.mk lo name attrs closing children) =
      suspTagPred v.react_suspense_contexts name := by
  cases name with
  | ident i =>
    by_cases h : i.sym = "Suspense".toList <;>
      simp [TransformVisitor.is_react_suspense, suspTagPred, JSXElement.name, h]
  | member o p => rfl

/-! ### Claim C1: the environment gate -/

/-- C1: evaluation of the gate at a module with an imported `Suspense`
element. With `enabled` unset, the development environment leaves the
tree unchanged while the production environment rewrites it — the
opposite of the claimed polarity (and of the comment in
`visit_mut_module_items`). The explicit `enabled` values behave as
claimed: `true` rewrites even in production, `false` suppresses even in
development. -/
theorem c1_gate_inverted_eval :
    transform cfgUnset devContext demoModule = demoModule ∧
    transform cfgUnset prodContext demoModule ≠ demoModule ∧
    transform cfgTrue prodContext demoModule ≠ demoModule ∧
    transform cfgFalse devContext demoModule = demoModule := by
  refine ⟨by decide, by decide, by decide, by decide⟩

/-! ### Claim C2: aliased react Suspense imports -/

/-- C2: evaluation at `import { Suspense as MySuspense } from "react"`
with a `<MySuspense>` element and the gate on. The import specifier is
removed, yet the element is left untouched, because `is_react_suspense`
additionally requires the tag to be spelled `Suspense`; the claimed
rewrite of the aliased tag does not happen. -/
theorem c2_alias_not_rewritten_eval :
    transform cfgTrue devContext aliasedModule =
      [.importDecl ⟨"react".toList, []⟩, .stmt (.expr (.jsx aliasedElem))] ∧
    firstJsx (transform cfgTrue devContext aliasedModule) = some aliasedElem := by
  refine ⟨by decide, by decide⟩

/-! ### Claim C3: matching is by scope context, not by name -/

/-- C3: an element whose tag identifier's context belongs to neither
recorded binding set is never rewritten, whatever its spelling: the
visitor leaves its span, tag, closing tag and attribute chain as they
are and only recurses into the subtrees. In particular a user-defined
`Suspense` (a context outside the set built from the react import) is
untouched. -/
theorem c3_foreign_scope_never_rewritten (v : TransformVisitor) (lo : Nat) (i : Ident)
    (attrs : AttrList) (closing : Option JSXElementName) (children : ChildList)
    (heb : i.ctxt ∉ v.error_boundary_contexts)
    (hrc : i.ctxt ∉ v.react_suspense_contexts) :
    visitElem v (.mk lo (.ident i) attrs closing children) =
      ((visitChildren (visitAttrs v attrs).1 children).1,
        .mk lo (.ident i) (visitAttrs v attrs).2 closing
          (visitChildren (visitAttrs v attrs).1 children).2) := by
  cases hc : v.custom_boundary_config with
  | none =>
    simp [visitElem, hc, is_react_suspense_eq, suspTagPred, hrc, AttrList.append_nil]
  | some s =>
    simp [visitElem, hc, heb, is_react_suspense_eq, suspTagPred, hrc, AttrList.append_nil]

/-- C3 witness: a user-defined `Suspense` in context 5, with bindings
recorded for contexts 1 (react) and 2 (custom), is left unchanged. -/
theorem c3_foreign_scope_never_rewritten_witness :
    (5 : Ctxt) ∉ [(2 : Ctxt)] ∧ (5 : Ctxt) ∉ [(1 : Ctxt)] ∧
    visitElem
        { TransformVisitor.new cfgTrue devContext with
            react_suspense_contexts := [1], error_boundary_contexts := [2] }
        (.mk 160 (.ident ⟨"Suspense".toList, 5⟩) .nil
          (some (.ident ⟨"Suspense".toList, 5⟩)) .nil) =
      ({ TransformVisitor.new cfgTrue devContext with
          react_suspense_contexts := [1], error_boundary_contexts := [2] },
        .mk 160 (.ident ⟨"Suspense".toList, 5⟩) .nil
          (some (.ident ⟨"Suspense".toList, 5⟩)) .nil) := by
  refine ⟨by decide, by decide, ?_⟩
  exact (c3_foreign_scope_never_rewritten
    { TransformVisitor.new cfgTrue devContext with
        react_suspense_contexts := [1], error_boundary_contexts := [2] }
    160 ⟨"Suspense".toList, 5⟩ .nil (some (.ident ⟨"Suspense".toList, 5⟩)) .nil
    (by decide) (by decide)).trans (by decide)

/-! ### Claim C7: the shape of a rewrite -/

/-- The custom-boundary branch of `visit_mut_jsx_element`, solved as an
equation: both tags become `CustomBoundary` in context 0 and the
`component={original}` and `id` attributes are appended. -/
theorem visitElem_custom_rewrite (v : TransformVisitor) (s : CustomBoundarySetting)
    (lo : Nat) (i : Ident) (attrs : AttrList) (closing : Option JSXElementName)
    (children : ChildList)
    (hc : v.custom_boundary_config = some s) (heb : i.ctxt ∈ v.error_boundary_contexts) :
    visitElem v (.mk lo (.ident i) attrs closing children) =
      ((visitChildren (visitAttrs v attrs).1 children).1,
        .mk lo (.ident ⟨"CustomBoundary".toList, 0⟩)
          ((visitAttrs v attrs).2.append
            (.attrExpr "component".toList (.ident i)
              (.attrLit "id".toList (v.generate_boundary_id i.sym lo) .nil)))
          (closing.map (fun _ => .ident ⟨"CustomBoundary".toList, 0⟩))
          (visitChildren (visitAttrs v attrs).1 children).2) := by
  simp [visitElem, hc, heb]

/-- The react-Suspense branch of `visit_mut_jsx_element`, solved as an
equation: both tags become `SuspenseTrackerSWC` in context 0, the `id`
attribute is appended, and the attributes are visited under the raised
`has_suspense_elements` flag. -/
theorem visitElem_suspense_rewrite (v : TransformVisitor) (lo : Nat) (i : Ident)
    (attrs : AttrList) (closing : Option JSXElementName) (children : ChildList)
    (hnc : customTagPred v.custom_boundary_config.isSome v.error_boundary_contexts
      (.ident i) = false)
    (hsym : i.sym = "Suspense".toList) (hrc : i.ctxt ∈ v.react_suspense_contexts) :
    visitElem v (.mk lo (.ident i) attrs closing children) =
      ((visitChildren
          (visitAttrs { v with has_suspense_elements := true } attrs).1 children).1,
        .mk lo (.ident ⟨SUSPENSE_TRACKER_IMPORT_NAME, 0⟩)
          ((visitAttrs { v with has_suspense_elements := true } attrs).2.append
            (.attrLit "id".toList
              (v.generate_boundary_id "Suspense".toList lo) .nil))
          (closing.map (fun _ => .ident ⟨SUSPENSE_TRACKER_IMPORT_NAME, 0⟩))
          (visitChildren
            (visitAttrs { v with has_suspense_elements := true } attrs).1 children).2) := by
  cases hc : v.custom_boundary_config with
  | none =>
    simp [visitElem, hc, is_react_suspense_eq, suspTagPred, hsym, hrc, AttrList.append,
      TransformVisitor.generate_boundary_id]
  | some s =>
    rw [hc] at hnc
    simp [customTagPred] at hnc
    simp [visitElem, hc, hnc, is_react_suspense_eq, suspTagPred, hsym, hrc, AttrList.append,
      TransformVisitor.generate_boundary_id]

/-- C7: on a match, the opening tag (and the closing tag when present)
becomes the fixed wrapper identifier of the rewrite kind with the empty
syntax context `0`, and the generated attributes are appended after the
(recursively visited) original attributes: for the custom kind a
`component` attribute referencing the original matched identifier
followed by the `id` attribute, for the Suspense kind the `id` attribute
alone. -/
theorem c7_rewrite_shape :
    (∀ (v : TransformVisitor) (s : CustomBoundarySetting) (lo : Nat) (i : Ident)
        (attrs : AttrList) (closing : Option JSXElementName) (children : ChildList),
      v.custom_boundary_config = some s → i.ctxt ∈ v.error_boundary_contexts →
      visitElem v (.mk lo (.ident i) attrs closing children) =
        ((visitChildren (visitAttrs v attrs).1 children).1,
          .mk lo (.ident ⟨"CustomBoundary".toList, 0⟩)
            ((visitAttrs v attrs).2.append
              (.attrExpr "component".toList (.ident i)
                (.attrLit "id".toList (v.generate_boundary_id i.sym lo) .nil)))
            (closing.map (fun _ => .ident ⟨"CustomBoundary".toList, 0⟩))
            (visitChildren (visitAttrs v attrs).1 children).2)) ∧
    (∀ (v : TransformVisitor) (lo : Nat) (i : Ident)
        (attrs : AttrList) (closing : Option JSXElementName) (children : ChildList),
      customTagPred v.custom_boundary_config.isSome v.error_boundary_contexts
          (.ident i) = false →
      i.sym = "Suspense".toList → i.ctxt ∈ v.react_suspense_contexts →
      visitElem v (.mk lo (.ident i) attrs closing children) =
        ((visitChildren
            (visitAttrs { v with has_suspense_elements := true } attrs).1 children).1,
          .mk lo (.ident ⟨SUSPENSE_TRACKER_IMPORT_NAME, 0⟩)
            ((visitAttrs { v with has_suspense_elements := true } attrs).2.append
              (.attrLit "id".toList
                (v.generate_boundary_id "Suspense".toList lo) .nil))
            (closing.map (fun _ => .ident ⟨SUSPENSE_TRACKER_IMPORT_NAME, 0⟩))
            (visitChildren
              (visitAttrs { v with has_suspense_elements := true } attrs).1 children).2)) := by
  exact ⟨fun v s lo i attrs closing children hc heb =>
      visitElem_custom_rewrite v s lo i attrs closing children hc heb,
    fun v lo i attrs closing children hnc hsym hrc =>
      visitElem_suspense_rewrite v lo i attrs closing children hnc hsym hrc⟩

/-- C7 witness: both conjuncts applied at concrete matched elements. -/
theorem c7_rewrite_shape_witness :
    ((TransformVisitor.new cfgCustom devContext).custom_boundary_config = none ∨
      visitElem
          { TransformVisitor.new cfgCustom devContext with
              error_boundary_contexts := [1],
              custom_boundary_config := some ⟨"MyErrorBoundary".toList, "my-error-lib".toList⟩ }
          customElem =
        ({ TransformVisitor.new cfgCustom devContext with
            error_boundary_contexts := [1],
            custom_boundary_config := some ⟨"MyErrorBoundary".toList, "my-error-lib".toList⟩ },
          .mk 240 (.ident ⟨"CustomBoundary".toList, 0⟩)
            (.attrExpr "component".toList (.ident ⟨"MyErrorBoundary".toList, 1⟩)
              (.attrLit "id".toList "my/file.tsx-MyErrorBoundary:4".toList .nil))
            (some (.ident ⟨"CustomBoundary".toList, 0⟩)) .nil)) ∧
    visitElem
        { TransformVisitor.new cfgTrue devContext with react_suspense_contexts := [1] }
        suspElem =
      ({ TransformVisitor.new cfgTrue devContext with
          react_suspense_contexts := [1], has_suspense_elements := true },
        .mk 160 (.ident ⟨SUSPENSE_TRACKER_IMPORT_NAME, 0⟩)
          (.attrLit "id".toList "my/file.tsx-Suspense:3".toList .nil)
          (some (.ident ⟨SUSPENSE_TRACKER_IMPORT_NAME, 0⟩)) .nil) := by
  constructor
  · right
    exact (c7_rewrite_shape.1
      { TransformVisitor.new cfgCustom devContext with
          error_boundary_contexts := [1],
          custom_boundary_config := some ⟨"MyErrorBoundary".toList, "my-error-lib".toList⟩ }
      ⟨"MyErrorBoundary".toList, "my-error-lib".toList⟩ 240 ⟨"MyErrorBoundary".toList, 1⟩
      .nil (some (.ident ⟨"MyErrorBoundary".toList, 1⟩)) .nil rfl (by decide)).trans (by decide)
  · exact (c7_rewrite_shape.2
      { TransformVisitor.new cfgTrue devContext with react_suspense_contexts := [1] }
      160 ⟨"Suspense".toList, 1⟩ .nil (some (.ident ⟨"Suspense".toList, 1⟩)) .nil
      (by decide) rfl (by decide)).trans (by decide)

/-! ### Claim C10: conflicting boundary definitions -/

/-- C10: two configured boundary settings that match the same specifier
of the same import are forced to be equal — the specifier determines both
the `from` (the import source) and the `component` (its external or local
name) — so the stored setting does not depend on the map-iteration
order in which the two entries are visited. -/
theorem c10_same_specifier_conflict_deterministic (d : ImportDecl)
    (spec : ImportSpecifier) (s1 s2 : CustomBoundarySetting)
    (hmem : spec ∈ d.specifiers)
    (h1 : settingMatchesSpec d.src spec s1) (h2 : settingMatchesSpec d.src spec s2) :
    s1 = s2 ∧
    ∀ (v : TransformVisitor) (pre post : List CustomBoundarySetting),
      process_custom_boundary_imports (withBoundaries v (pre ++ s1 :: s2 :: post)) d =
        process_custom_boundary_imports (withBoundaries v (pre ++ s2 :: s1 :: post)) d := by
  have hs : s1 = s2 := by
    cases spec with
    | named n =>
      obtain ⟨a1, b1⟩ := h1
      obtain ⟨a2, b2⟩ := h2
      cases s1; cases s2
      simp_all
    | defaultSpec l =>
      obtain ⟨a1, b1⟩ := h1
      obtain ⟨a2, b2⟩ := h2
      cases s1; cases s2
      simp_all
    | namespaceSpec l => exact absurd h1 (by simp [settingMatchesSpec])
  subst hs
  exact ⟨rfl, fun v pre post => rfl⟩

/-- C10 witness: two duplicate map entries for `MyErrorBoundary` from
`my-error-lib` both match the specifier of the fixture import; the
theorem applies and the processed states coincide. -/
theorem c10_same_specifier_conflict_deterministic_witness :
    (⟨"MyErrorBoundary".toList, "my-error-lib".toList⟩ : CustomBoundarySetting) =
      ⟨"MyErrorBoundary".toList, "my-error-lib".toList⟩ ∧
    process_custom_boundary_imports
        (withBoundaries (TransformVisitor.new cfgTrue devContext)
          ([⟨"Other".toList, "other-lib".toList⟩] ++
            ⟨"MyErrorBoundary".toList, "my-error-lib".toList⟩ ::
            ⟨"MyErrorBoundary".toList, "my-error-lib".toList⟩ :: []))
        ⟨"my-error-lib".toList, [.named ⟨⟨"MyErrorBoundary".toList, 1⟩, none⟩]⟩ =
      process_custom_boundary_imports
        (withBoundaries (TransformVisitor.new cfgTrue devContext)
          ([⟨"Other".toList, "other-lib".toList⟩] ++
            ⟨"MyErrorBoundary".toList, "my-error-lib".toList⟩ ::
            ⟨"MyErrorBoundary".toList, "my-error-lib".toList⟩ :: []))
        ⟨"my-error-lib".toList, [.named ⟨⟨"MyErrorBoundary".toList, 1⟩, none⟩]⟩ := by
  have h := c10_same_specifier_conflict_deterministic
    ⟨"my-error-lib".toList, [.named ⟨⟨"MyErrorBoundary".toList, 1⟩, none⟩]⟩
    (.named ⟨⟨"MyErrorBoundary".toList, 1⟩, none⟩)
    ⟨"MyErrorBoundary".toList, "my-error-lib".toList⟩
    ⟨"MyErrorBoundary".toList, "my-error-lib".toList⟩
    (by decide) ⟨rfl, rfl⟩ ⟨rfl, rfl⟩
  exact ⟨h.1, h.2 (TransformVisitor.new cfgTrue devContext)
    [⟨"Other".toList, "other-lib".toList⟩] []⟩

/-! ### Claim C8: the generated id -/

theorem stripLeading_slash_append (f xs : Chars) :
    helpers.stripLeading ['/'] (f ++ '-' :: xs) =
      (helpers.stripLeading ['/'] f).map (· ++ '-' :: xs) := by
  cases f with
  | nil => rfl
  | cons c f' =>
    by_cases h : '/' = c <;> simp [helpers.stripLeading, h]

theorem stripLeading_dotslash_append (f xs : Chars) :
    helpers.stripLeading ['.', '/'] (f ++ '-' :: xs) =
      (helpers.stripLeading ['.', '/'] f).map (· ++ '-' :: xs) := by
  match f with
  | [] => rfl
  | [c] =>
    by_cases h : '.' = c <;> simp [helpers.stripLeading, h]
  | c1 :: c2 :: f' =>
    by_cases h1 : '.' = c1
    · by_cases h2 : '/' = c2
      · subst h1; subst h2; simp [helpers.stripLeading]
      · subst h1; simp [helpers.stripLeading, h2]
    · simp [helpers.stripLeading, h1]

/-- Backslash replacement fixes a backslash-free string. -/
theorem replMap_of_not_mem : ∀ (xs : Chars), '\\' ∉ xs →
    xs.map (fun c => if c = '\\' then '/' else c) = xs
  | [], _ => rfl
  | c :: xs, h => by
    have hc : ¬(c = '\\') := fun heq => h (heq ▸ List.mem_cons_self c xs)
    have hxs : '\\' ∉ xs := fun hm => h (List.mem_cons_of_mem c hm)
    simp [hc, replMap_of_not_mem xs hxs]

/-- Normalization commutes with appending a dash-led suffix: stripping a
leading marker is unaffected by the suffix, and backslash replacement
fixes the backslash-free suffix. -/
theorem normalize_append_dash (f label : Chars) (h : '\\' ∉ label) :
    helpers.normalize_filename (f ++ '-' :: label) =
      helpers.normalize_filename f ++ '-' :: label := by
  unfold helpers.normalize_filename
  rw [show "./".toList = ['.', '/'] from rfl, show "/".toList = ['/'] from rfl]
  rw [stripLeading_dotslash_append, stripLeading_slash_append]
  have hmap : ('-' :: label).map (fun c => if c = '\\' then '/' else c) = '-' :: label := by
    refine replMap_of_not_mem ('-' :: label) ?_
    intro hmem
    rcases List.mem_cons.mp hmem with h1 | h2
    · exact absurd h1.symm (by decide)
    · exact h h2
  cases hd : helpers.stripLeading ['.', '/'] f with
  | some g => simp [Option.orElse, List.map_append, hmap]
  | none =>
    cases hs : helpers.stripLeading ['/'] f with
    | some g => simp [Option.orElse, List.map_append, hmap]
    | none => simp [Option.orElse, List.map_append, hmap]

/-- C8 counterexample: with `import { MyErrorBoundary as CustomEB } from
"my-error-lib"` and a `<CustomEB>` element at offset 240 (line 4), the
generated id embeds the local alias `CustomEB`, not the original
exported name `MyErrorBoundary` required by the claim. -/
theorem c8_label_is_local_name_counterexample :
    (firstJsx (transform cfgCustom devContext aliasedCustomModule)).map
        (fun e => idLitValues e.attrs) =
      some ["my/file.tsx-CustomEB:4".toList] ∧
    ("my/file.tsx-CustomEB:4".toList : Chars) ≠
      helpers.normalize_filename fixtureFilename ++ '-' ::
        ("MyErrorBoundary".toList ++ ':' ::
          helpers.natToChars (helpers.extract_line_number 240)) := by
  refine ⟨by decide, by decide⟩

/-- C8 (amended): the id attached to a matched element is
`{normalizedFilename}-{label}:{line}` with `line` derived from the start
offset, but `label` is the element's tag identifier as spelled (the
local, possibly aliased, name) for the custom kind, and the fixed string
`Suspense` for the react kind — not the original exported name. The
separator layout is exactly as published. -/
theorem c8_id_format_amended :
    (∀ (v : TransformVisitor) (s : CustomBoundarySetting) (lo : Nat) (i : Ident)
        (attrs : AttrList) (closing : Option JSXElementName) (children : ChildList),
      v.custom_boundary_config = some s → i.ctxt ∈ v.error_boundary_contexts →
      '\\' ∉ i.sym →
      ((visitElem v (.mk lo (.ident i) attrs closing children)).2).attrs =
        (visitAttrs v attrs).2.append
          (.attrExpr "component".toList (.ident i)
            (.attrLit "id".toList
              (helpers.normalize_filename v.context.filename ++ '-' ::
                (i.sym ++ ':' :: helpers.natToChars (helpers.extract_line_number lo)))
              .nil))) ∧
    (∀ (v : TransformVisitor) (lo : Nat) (i : Ident)
        (attrs : AttrList) (closing : Option JSXElementName) (children : ChildList),
      customTagPred v.custom_boundary_config.isSome v.error_boundary_contexts
          (.ident i) = false →
      i.sym = "Suspense".toList → i.ctxt ∈ v.react_suspense_contexts →
      ((visitElem v (.mk lo (.ident i) attrs closing children)).2).attrs =
        (visitAttrs { v with has_suspense_elements := true } attrs).2.append
          (.attrLit "id".toList
            (helpers.normalize_filename v.context.filename ++ '-' ::
              ("Suspense".toList ++ ':' ::
                helpers.natToChars (helpers.extract_line_number lo)))
            .nil)) := by
  have hgen : ∀ (v : TransformVisitor) (label : Chars) (lo : Nat), '\\' ∉ label →
      v.generate_boundary_id label lo =
        helpers.normalize_filename v.context.filename ++ '-' ::
          (label ++ ':' :: helpers.natToChars (helpers.extract_line_number lo)) := by
    intro v label lo hl
    unfold TransformVisitor.generate_boundary_id helpers.generate_boundary_id
    rw [normalize_append_dash _ _ hl]
    simp
  constructor
  · intro v s lo i attrs closing children hc heb hl
    rw [visitElem_custom_rewrite v s lo i attrs closing children hc heb]
    rw [JSXElement.attrs, hgen v i.sym lo hl]
  · intro v lo i attrs closing children hnc hsym hrc
    rw [visitElem_suspense_rewrite v lo i attrs closing children hnc hsym hrc]
    rw [JSXElement.attrs, hgen v "Suspense".toList lo (by decide)]

/-- C8 (amended) witness: both kinds applied at the fixtures; the custom
kind yields the alias-labelled id, the react kind the `Suspense` id. -/
theorem c8_id_format_amended_witness :
    ((visitElem
        { TransformVisitor.new cfgCustom devContext with
            error_boundary_contexts := [1],
            custom_boundary_config := some ⟨"MyErrorBoundary".toList, "my-error-lib".toList⟩ }
        aliasedCustomElem).2).attrs =
      .attrExpr "component".toList (.ident ⟨"CustomEB".toList, 1⟩)
        (.attrLit "id".toList "my/file.tsx-CustomEB:4".toList .nil) ∧
    ((visitElem
        { TransformVisitor.new cfgTrue devContext with react_suspense_contexts := [1] }
        suspElem).2).attrs =
      .attrLit "id".toList "my/file.tsx-Suspense:3".toList .nil := by
  constructor
  · exact (c8_id_format_amended.1
      { TransformVisitor.new cfgCustom devContext with
          error_boundary_contexts := [1],
          custom_boundary_config := some ⟨"MyErrorBoundary".toList, "my-error-lib".toList⟩ }
      ⟨"MyErrorBoundary".toList, "my-error-lib".toList⟩ 240 ⟨"CustomEB".toList, 1⟩
      .nil (some (.ident ⟨"CustomEB".toList, 1⟩)) .nil rfl (by decide) (by decide)).trans
      (by decide)
  · exact (c8_id_format_amended.2
      { TransformVisitor.new cfgTrue devContext with react_suspense_contexts := [1] }
      160 ⟨"Suspense".toList, 1⟩ .nil (some (.ident ⟨"Suspense".toList, 1⟩)) .nil
      (by decide) rfl (by decide)).trans (by decide)

/-! ### Structure of the traversal: state and identity lemmas -/

theorem attrsAnyTag_append (p : JSXElementName → Bool) :
    ∀ (xs ys : AttrList),
      attrsAnyTag p (xs.append ys) = (attrsAnyTag p xs || attrsAnyTag p ys)
  | .nil, ys => by simp [AttrList.append, attrsAnyTag]
  | .attrNoVal n r, ys => by
    simp [AttrList.append, attrsAnyTag, attrsAnyTag_append p r ys]
  | .attrLit n v r, ys => by
    simp [AttrList.append, attrsAnyTag, attrsAnyTag_append p r ys]
  | .attrExpr n v r, ys => by
    simp [AttrList.append, attrsAnyTag, attrsAnyTag_append p r ys, Bool.or_assoc]
  | .spread v r, ys => by
    simp [AttrList.append, attrsAnyTag, attrsAnyTag_append p r ys, Bool.or_assoc]

/-- The four visitor fields the gate and the matcher read are never
changed by the traversal (only `has_suspense_elements` can change). -/
def FieldsKept (v w : TransformVisitor) : Prop :=
  w.error_boundary_contexts = v.error_boundary_contexts ∧
  w.custom_boundary_config = v.custom_boundary_config ∧
  w.react_suspense_contexts = v.react_suspense_contexts ∧
  w.suspense_tracker_imported = v.suspense_tracker_imported

theorem FieldsKept.trans {u v w : TransformVisitor} (h1 : FieldsKept u v)
    (h2 : FieldsKept v w) : FieldsKept u w :=
  ⟨h2.1.trans h1.1, h2.2.1.trans h1.2.1, h2.2.2.1.trans h1.2.2.1,
    h2.2.2.2.trans h1.2.2.2⟩

theorem fieldsKept_hasTrue (v : TransformVisitor) :
    FieldsKept v { v with has_suspense_elements := true } :=
  ⟨rfl, rfl, rfl, rfl⟩

mutual
/-- The traversal only changes the `has_suspense_elements` flag
(expression case). -/
theorem visitExpr_fields : ∀ (v : TransformVisitor) (e : Expr),
    FieldsKept v (visitExpr v e).1
  | v, .ident i => ⟨rfl, rfl, rfl, rfl⟩
  | v, .jsx e => by
    simp only [visitExpr]
    exact visitElem_fields v e
  | v, .other n => ⟨rfl, rfl, rfl, rfl⟩
/-- The traversal only changes the `has_suspense_elements` flag
(attribute-chain case). -/
theorem visitAttrs_fields : ∀ (v : TransformVisitor) (a : AttrList),
    FieldsKept v (visitAttrs v a).1
  | v, .nil => ⟨rfl, rfl, rfl, rfl⟩
  | v, .attrNoVal n r => by
    simp only [visitAttrs]
    exact visitAttrs_fields v r
  | v, .attrLit n s r => by
    simp only [visitAttrs]
    exact visitAttrs_fields v r
  | v, .attrExpr n e r => by
    simp only [visitAttrs]
    exact (visitExpr_fields v e).trans (visitAttrs_fields (visitExpr v e).1 r)
  | v, .spread e r => by
    simp only [visitAttrs]
    exact (visitExpr_fields v e).trans (visitAttrs_fields (visitExpr v e).1 r)
/-- The traversal only changes the `has_suspense_elements` flag
(child-list case). -/
theorem visitChildren_fields : ∀ (v : TransformVisitor) (c : ChildList),
    FieldsKept v (visitChildren v c).1
  | v, .nil => ⟨rfl, rfl, rfl, rfl⟩
  | v, .elem e r => by
    simp only [visitChildren]
    exact (visitElem_fields v e).trans (visitChildren_fields (visitElem v e).1 r)
  | v, .text s r => by
    simp only [visitChildren]
    exact visitChildren_fields v r
  | v, .exprChild e r => by
    simp only [visitChildren]
    exact (visitExpr_fields v e).trans (visitChildren_fields (visitExpr v e).1 r)
/-- The traversal only changes the `has_suspense_elements` flag
(element case). -/
theorem visitElem_fields : ∀ (v : TransformVisitor) (e : JSXElement),
    FieldsKept v (visitElem v e).1
  | v, .mk lo name attrs closing children => by
    simp only [visitElem]
    repeat' split
    all_goals
      first
        | exact ((fieldsKept_hasTrue v).trans
            (visitAttrs_fields { v with has_suspense_elements := true } attrs)).trans
            (visitChildren_fields
              (visitAttrs { v with has_suspense_elements := true } attrs).1 children)
        | exact (visitAttrs_fields v attrs).trans
            (visitChildren_fields (visitAttrs v attrs).1 children)
end

theorem visitStmt_fields (v : TransformVisitor) (s : Stmt) :
    FieldsKept v (visitStmt v s).1 := by
  cases s with
  | expr e =>
    simp only [visitStmt]
    exact visitExpr_fields v e
  | other n => exact ⟨rfl, rfl, rfl, rfl⟩

theorem visitItems_fields : ∀ (v : TransformVisitor) (items : List ModuleItem),
    FieldsKept v (visitItems v items).1
  | v, [] => ⟨rfl, rfl, rfl, rfl⟩
  | v, .importDecl d :: rest => by
    simp only [visitItems]
    exact visitItems_fields v rest
  | v, .stmt s :: rest => by
    simp only [visitItems]
    exact (visitStmt_fields v s).trans (visitItems_fields (visitStmt v s).1 rest)

mutual
/-- When no tag in the expression matches, the traversal is the identity
and leaves the state untouched. -/
theorem visitExpr_noMatch : ∀ (v : TransformVisitor) (e : Expr),
    exprAnyTag (matchPred v.custom_boundary_config.isSome v.error_boundary_contexts
      v.react_suspense_contexts) e = false →
    visitExpr v e = (v, e)
  | v, .ident i, _ => rfl
  | v, .jsx e, h => by
    simp only [exprAnyTag] at h
    simp only [visitExpr, visitElem_noMatch v e h]
  | v, .other n, _ => rfl
/-- When no tag in the attribute chain matches, the traversal is the
identity and leaves the state untouched. -/
theorem visitAttrs_noMatch : ∀ (v : TransformVisitor) (a : AttrList),
    attrsAnyTag (matchPred v.custom_boundary_config.isSome v.error_boundary_contexts
      v.react_suspense_contexts) a = false →
    visitAttrs v a = (v, a)
  | v, .nil, _ => rfl
  | v, .attrNoVal n r, h => by
    simp only [attrsAnyTag] at h
    simp only [visitAttrs, visitAttrs_noMatch v r h]
  | v, .attrLit n s r, h => by
    simp only [attrsAnyTag] at h
    simp only [visitAttrs, visitAttrs_noMatch v r h]
  | v, .attrExpr n e r, h => by
    simp only [attrsAnyTag, Bool.or_eq_false_iff] at h
    simp only [visitAttrs, visitExpr_noMatch v e h.1, visitAttrs_noMatch v r h.2]
  | v, .spread e r, h => by
    simp only [attrsAnyTag, Bool.or_eq_false_iff] at h
    simp only [visitAttrs, visitExpr_noMatch v e h.1, visitAttrs_noMatch v r h.2]
/-- When no tag in the child list matches, the traversal is the identity
and leaves the state untouched. -/
theorem visitChildren_noMatch : ∀ (v : TransformVisitor) (c : ChildList),
    childrenAnyTag (matchPred v.custom_boundary_config.isSome v.error_boundary_contexts
      v.react_suspense_contexts) c = false →
    visitChildren v c = (v, c)
  | v, .nil, _ => rfl
  | v, .elem e r, h => by
    simp only [childrenAnyTag, Bool.or_eq_false_iff] at h
    simp only [visitChildren, visitElem_noMatch v e h.1, visitChildren_noMatch v r h.2]
  | v, .text s r, h => by
    simp only [childrenAnyTag] at h
    simp only [visitChildren, visitChildren_noMatch v r h]
  | v, .exprChild e r, h => by
    simp only [childrenAnyTag, Bool.or_eq_false_iff] at h
    simp only [visitChildren, visitExpr_noMatch v e h.1, visitChildren_noMatch v r h.2]
/-- When no tag in the element matches, the traversal is the identity and
leaves the state untouched. -/
theorem visitElem_noMatch : ∀ (v : TransformVisitor) (e : JSXElement),
    elemAnyTag (matchPred v.custom_boundary_config.isSome v.error_boundary_contexts
      v.react_suspense_contexts) e = false →
    visitElem v e = (v, e)
  | v, .mk lo name attrs closing children, h => by
    simp only [elemAnyTag, Bool.or_eq_false_iff] at h
    obtain ⟨⟨h1, h2⟩, h3⟩ := h
    simp only [matchPred, Bool.or_eq_false_iff] at h1
    obtain ⟨hcust, hsusp⟩ := h1
    cases hc : v.custom_boundary_config with
    | none =>
      simp [visitElem, hc, is_react_suspense_eq, hsusp,
        visitAttrs_noMatch v attrs h2, visitChildren_noMatch v children h3,
        AttrList.append_nil]
    | some s =>
      cases name with
      | ident i =>
        rw [hc] at hcust
        simp only [customTagPred, Option.isSome_some, Bool.true_and,
          decide_eq_false_iff_not] at hcust
        simp [visitElem, hc, hcust, is_react_suspense_eq, hsusp,
          visitAttrs_noMatch v attrs h2, visitChildren_noMatch v children h3,
          AttrList.append_nil]
      | member o p =>
        simp [visitElem, hc, is_react_suspense_eq, hsusp,
          visitAttrs_noMatch v attrs h2, visitChildren_noMatch v children h3,
          AttrList.append_nil]
end

/-- When no tag in the statement matches, the traversal is the identity. -/
theorem visitStmt_noMatch (v : TransformVisitor) (s : Stmt)
    (h : stmtAnyTag (matchPred v.custom_boundary_config.isSome v.error_boundary_contexts
      v.react_suspense_contexts) s = false) :
    visitStmt v s = (v, s) := by
  cases s with
  | expr e =>
    simp only [stmtAnyTag] at h
    simp only [visitStmt, visitExpr_noMatch v e h]
  | other n => rfl

/-- When no tag in the module matches, the second pass is the identity. -/
theorem visitItems_noMatch : ∀ (v : TransformVisitor) (items : List ModuleItem),
    itemsAnyTag (matchPred v.custom_boundary_config.isSome v.error_boundary_contexts
      v.react_suspense_contexts) items = false →
    visitItems v items = (v, items)
  | v, [], _ => rfl
  | v, .importDecl d :: rest, h => by
    simp only [itemsAnyTag] at h
    simp only [visitItems, visitItems_noMatch v rest h]
  | v, .stmt s :: rest, h => by
    simp only [itemsAnyTag, Bool.or_eq_false_iff] at h
    simp only [visitItems, visitStmt_noMatch v s h.1, visitItems_noMatch v rest h.2]

mutual
/-- After a visit with `0` outside the recorded error-boundary contexts,
no tag of the output expression matches the custom binding set: matched
tags were renamed into context `0`, unmatched ones were outside the set
already. -/
theorem visitExpr_customInert : ∀ (v : TransformVisitor) (e : Expr),
    (0 : Ctxt) ∉ v.error_boundary_contexts →
    exprAnyTag (customTagPred v.custom_boundary_config.isSome v.error_boundary_contexts)
      (visitExpr v e).2 = false
  | v, .ident i, _ => rfl
  | v, .jsx e, h => by
    simp only [visitExpr, exprAnyTag]
    exact visitElem_customInert v e h
  | v, .other n, _ => rfl
/-- Custom-inertness of the visited attribute chain. -/
theorem visitAttrs_customInert : ∀ (v : TransformVisitor) (a : AttrList),
    (0 : Ctxt) ∉ v.error_boundary_contexts →
    attrsAnyTag (customTagPred v.custom_boundary_config.isSome v.error_boundary_contexts)
      (visitAttrs v a).2 = false
  | v, .nil, _ => rfl
  | v, .attrNoVal n r, h => by
    simp only [visitAttrs, attrsAnyTag]
    exact visitAttrs_customInert v r h
  | v, .attrLit n s r, h => by
    simp only [visitAttrs, attrsAnyTag]
    exact visitAttrs_customInert v r h
  | v, .attrExpr n e r, h => by
    simp only [visitAttrs, attrsAnyTag, Bool.or_eq_false_iff]
    have hf := visitExpr_fields v e
    refine ⟨visitExpr_customInert v e h, ?_⟩
    have h' : (0 : Ctxt) ∉ (visitExpr v e).1.error_boundary_contexts := by
      rw [hf.1]; exact h
    have hrec := visitAttrs_customInert (visitExpr v e).1 r h'
    rw [hf.1, hf.2.1] at hrec
    exact hrec
  | v, .spread e r, h => by
    simp only [visitAttrs, attrsAnyTag, Bool.or_eq_false_iff]
    have hf := visitExpr_fields v e
    refine ⟨visitExpr_customInert v e h, ?_⟩
    have h' : (0 : Ctxt) ∉ (visitExpr v e).1.error_boundary_contexts := by
      rw [hf.1]; exact h
    have hrec := visitAttrs_customInert (visitExpr v e).1 r h'
    rw [hf.1, hf.2.1] at hrec
    exact hrec
/-- Custom-inertness of the visited child list. -/
theorem visitChildren_customInert : ∀ (v : TransformVisitor) (c : ChildList),
    (0 : Ctxt) ∉ v.error_boundary_contexts →
    childrenAnyTag (customTagPred v.custom_boundary_config.isSome v.error_boundary_contexts)
      (visitChildren v c).2 = false
  | v, .nil, _ => rfl
  | v, .elem e r, h => by
    simp only [visitChildren, childrenAnyTag, Bool.or_eq_false_iff]
    have hf := visitElem_fields v e
    refine ⟨visitElem_customInert v e h, ?_⟩
    have h' : (0 : Ctxt) ∉ (visitElem v e).1.error_boundary_contexts := by
      rw [hf.1]; exact h
    have hrec := visitChildren_customInert (visitElem v e).1 r h'
    rw [hf.1, hf.2.1] at hrec
    exact hrec
  | v, .text s r, h => by
    simp only [visitChildren, childrenAnyTag]
    exact visitChildren_customInert v r h
  | v, .exprChild e r, h => by
    simp only [visitChildren, childrenAnyTag, Bool.or_eq_false_iff]
    have hf := visitExpr_fields v e
    refine ⟨visitExpr_customInert v e h, ?_⟩
    have h' : (0 : Ctxt) ∉ (visitExpr v e).1.error_boundary_contexts := by
      rw [hf.1]; exact h
    have hrec := visitChildren_customInert (visitExpr v e).1 r h'
    rw [hf.1, hf.2.1] at hrec
    exact hrec
/-- Custom-inertness of the visited element. -/
theorem visitElem_customInert : ∀ (v : TransformVisitor) (e : JSXElement),
    (0 : Ctxt) ∉ v.error_boundary_contexts →
    elemAnyTag (customTagPred v.custom_boundary_config.isSome v.error_boundary_contexts)
      (visitElem v e).2 = false
  | v, .mk lo name attrs closing children, h0 => by
    have hattrs : attrsAnyTag
        (customTagPred v.custom_boundary_config.isSome v.error_boundary_contexts)
        (visitAttrs v attrs).2 = false := visitAttrs_customInert v attrs h0
    have hattrsT : attrsAnyTag
        (customTagPred v.custom_boundary_config.isSome v.error_boundary_contexts)
        (visitAttrs { v with has_suspense_elements := true } attrs).2 = false :=
      visitAttrs_customInert { v with has_suspense_elements := true } attrs h0
    have hkids : childrenAnyTag
        (customTagPred v.custom_boundary_config.isSome v.error_boundary_contexts)
        (visitChildren (visitAttrs v attrs).1 children).2 = false := by
      have hf := visitAttrs_fields v attrs
      have h' : (0 : Ctxt) ∉ (visitAttrs v attrs).1.error_boundary_contexts := by
        rw [hf.1]; exact h0
      have hrec := visitChildren_customInert (visitAttrs v attrs).1 children h'
      rw [hf.1, hf.2.1] at hrec
      exact hrec
    have hkidsT : childrenAnyTag
        (customTagPred v.custom_boundary_config.isSome v.error_boundary_contexts)
        (visitChildren (visitAttrs { v with has_suspense_elements := true } attrs).1
          children).2 = false := by
      have hf := visitAttrs_fields { v with has_suspense_elements := true } attrs
      have h' : (0 : Ctxt) ∉
          (visitAttrs { v with has_suspense_elements := true } attrs).1.error_boundary_contexts := by
        rw [hf.1]; exact h0
      have hrec := visitChildren_customInert
        (visitAttrs { v with has_suspense_elements := true } attrs).1 children h'
      rw [hf.1, hf.2.1] at hrec
      exact hrec
    cases hc : v.custom_boundary_config with
    | none =>
      rw [hc] at hattrs hattrsT hkids hkidsT
      simp only [Option.isSome_none] at hattrs hattrsT hkids hkidsT
      simp only [visitElem, hc]
      split
      next hcond =>
        simp only [elemAnyTag, Bool.or_eq_false_iff, Option.isSome_some, Option.isSome_none]
        refine ⟨⟨by simp [customTagPred], ?_⟩, hkidsT⟩
        rw [attrsAnyTag_append]
        simp [AttrList.append, attrsAnyTag, hattrsT]
      next hcond =>
        simp only [elemAnyTag, Bool.or_eq_false_iff, Option.isSome_some, Option.isSome_none]
        refine ⟨⟨by simp [customTagPred], ?_⟩, hkids⟩
        rw [attrsAnyTag_append]
        simp [attrsAnyTag, hattrs]
    | some s =>
      rw [hc] at hattrs hattrsT hkids hkidsT
      simp only [Option.isSome_some] at hattrs hattrsT hkids hkidsT
      cases name with
      | ident i =>
        by_cases hm : i.ctxt ∈ v.error_boundary_contexts
        · rw [visitElem_custom_rewrite v s lo i attrs closing children hc hm]
          simp only [elemAnyTag, Bool.or_eq_false_iff, Option.isSome_some, Option.isSome_none]
          refine ⟨⟨by simp [customTagPred, h0], ?_⟩, hkids⟩
          rw [attrsAnyTag_append]
          simp [attrsAnyTag, exprAnyTag, hattrs]
        · simp only [visitElem, hc, if_neg hm]
          split
          next hcond =>
            simp only [elemAnyTag, Bool.or_eq_false_iff, Option.isSome_some, Option.isSome_none]
            refine ⟨⟨by simp [customTagPred, h0], ?_⟩, hkidsT⟩
            rw [attrsAnyTag_append]
            simp [AttrList.append, attrsAnyTag, hattrsT]
          next hcond =>
            simp only [elemAnyTag, Bool.or_eq_false_iff, Option.isSome_some, Option.isSome_none]
            refine ⟨⟨by simp [customTagPred, hm], ?_⟩, hkids⟩
            rw [attrsAnyTag_append]
            simp [attrsAnyTag, hattrs]
      | member o p =>
        simp only [visitElem, hc]
        split
        next hcond =>
          simp only [elemAnyTag, Bool.or_eq_false_iff, Option.isSome_some, Option.isSome_none]
          refine ⟨⟨by simp [customTagPred, h0], ?_⟩, hkidsT⟩
          rw [attrsAnyTag_append]
          simp [AttrList.append, attrsAnyTag, hattrsT]
        next hcond =>
          simp only [elemAnyTag, Bool.or_eq_false_iff, Option.isSome_some, Option.isSome_none]
          refine ⟨⟨by simp [customTagPred], ?_⟩, hkids⟩
          rw [attrsAnyTag_append]
          simp [attrsAnyTag, hattrs]
end

/-- Custom-inertness of the visited statement. -/
theorem visitStmt_customInert (v : TransformVisitor) (s : Stmt)
    (h : (0 : Ctxt) ∉ v.error_boundary_contexts) :
    stmtAnyTag (customTagPred v.custom_boundary_config.isSome v.error_boundary_contexts)
      (visitStmt v s).2 = false := by
  cases s with
  | expr e =>
    simp only [visitStmt, stmtAnyTag]
    exact visitExpr_customInert v e h
  | other n => rfl

/-- Custom-inertness of the second pass over the whole module. -/
theorem visitItems_customInert : ∀ (v : TransformVisitor) (items : List ModuleItem),
    (0 : Ctxt) ∉ v.error_boundary_contexts →
    itemsAnyTag (customTagPred v.custom_boundary_config.isSome v.error_boundary_contexts)
      (visitItems v items).2 = false
  | v, [], _ => rfl
  | v, .importDecl d :: rest, h => by
    simp only [visitItems, itemsAnyTag]
    exact visitItems_customInert v rest h
  | v, .stmt s :: rest, h => by
    simp only [visitItems, itemsAnyTag, Bool.or_eq_false_iff]
    have hf := visitStmt_fields v s
    refine ⟨visitStmt_customInert v s h, ?_⟩
    have h' : (0 : Ctxt) ∉ (visitStmt v s).1.error_boundary_contexts := by
      rw [hf.1]; exact h
    have hrec := visitItems_customInert (visitStmt v s).1 rest h'
    rw [hf.1, hf.2.1] at hrec
    exact hrec

/-! ### Characterization of the first pass -/

theorem processReactSpecifiers_eq : ∀ (v : TransformVisitor) (specs : List ImportSpecifier),
    processReactSpecifiers v specs =
      ({ v with react_suspense_contexts := reactCtxtsAfter v.react_suspense_contexts specs },
        strippedSpecs specs, hasSuspSpecifier specs)
  | v, [] => rfl
  | v, spec :: rest => by
    cases spec with
    | named n =>
      by_cases h : externalName n = "Suspense".toList
      · simp only [processReactSpecifiers, h, if_true, reactCtxtsAfter, strippedSpecs,
          hasSuspSpecifier, ite_true]
        rw [processReactSpecifiers_eq _ rest]
      · simp only [processReactSpecifiers, h, if_false, reactCtxtsAfter, strippedSpecs,
          hasSuspSpecifier, ite_false]
        rw [processReactSpecifiers_eq v rest]
    | defaultSpec l =>
      simp only [processReactSpecifiers, reactCtxtsAfter, strippedSpecs, hasSuspSpecifier]
      rw [processReactSpecifiers_eq v rest]
    | namespaceSpec l =>
      simp only [processReactSpecifiers, reactCtxtsAfter, strippedSpecs, hasSuspSpecifier]
      rw [processReactSpecifiers_eq v rest]

theorem processCustomSpecifier_eq (sCfg : CustomBoundarySetting) (v : TransformVisitor)
    (spec : ImportSpecifier) :
    processCustomSpecifier sCfg v spec =
      { v with
          error_boundary_contexts :=
            (customSpecStep sCfg (v.error_boundary_contexts, v.custom_boundary_config) spec).1,
          custom_boundary_config :=
            (customSpecStep sCfg (v.error_boundary_contexts, v.custom_boundary_config) spec).2 } := by
  cases spec with
  | named n =>
    by_cases h : externalName n = sCfg.component
    · by_cases h2 : (v.custom_boundary_config).isNone <;>
        simp [processCustomSpecifier, customSpecStep, h, h2]
    · simp [processCustomSpecifier, customSpecStep, h]
  | defaultSpec l =>
    by_cases h : l.sym = sCfg.component
    · by_cases h2 : (v.custom_boundary_config).isNone <;>
        simp [processCustomSpecifier, customSpecStep, h, h2]
    · simp [processCustomSpecifier, customSpecStep, h]
  | namespaceSpec l => rfl

theorem foldl_customSpecifier_eq :
    ∀ (specs : List ImportSpecifier) (sCfg : CustomBoundarySetting) (v : TransformVisitor),
      specs.foldl (processCustomSpecifier sCfg) v =
        { v with
            error_boundary_contexts :=
              (specs.foldl (customSpecStep sCfg)
                (v.error_boundary_contexts, v.custom_boundary_config)).1,
            custom_boundary_config :=
              (specs.foldl (customSpecStep sCfg)
                (v.error_boundary_contexts, v.custom_boundary_config)).2 }
  | [], _, v => rfl
  | spec :: rest, sCfg, v => by
    simp only [List.foldl_cons]
    rw [processCustomSpecifier_eq, foldl_customSpecifier_eq rest sCfg _]

theorem processCustomSetting_eq (d : ImportDecl) (v : TransformVisitor)
    (sCfg : CustomBoundarySetting) :
    processCustomSetting d v sCfg =
      { v with
          error_boundary_contexts :=
            (customSettingStep d (v.error_boundary_contexts, v.custom_boundary_config) sCfg).1,
          custom_boundary_config :=
            (customSettingStep d (v.error_boundary_contexts, v.custom_boundary_config) sCfg).2 } := by
  by_cases h : sCfg.from_ = d.src
  · simp only [processCustomSetting, customSettingStep, h, if_true, ite_true]
    rw [foldl_customSpecifier_eq]
  · simp [processCustomSetting, customSettingStep, h]

theorem foldl_customSetting_eq :
    ∀ (m : List CustomBoundarySetting) (d : ImportDecl) (v : TransformVisitor),
      m.foldl (processCustomSetting d) v =
        { v with
            error_boundary_contexts :=
              (m.foldl (customSettingStep d)
                (v.error_boundary_contexts, v.custom_boundary_config)).1,
            custom_boundary_config :=
              (m.foldl (customSettingStep d)
                (v.error_boundary_contexts, v.custom_boundary_config)).2 }
  | [], _, v => rfl
  | sCfg :: rest, d, v => by
    simp only [List.foldl_cons]
    rw [processCustomSetting_eq, foldl_customSetting_eq rest d _]

theorem process_custom_boundary_imports_eq (v : TransformVisitor) (d : ImportDecl) :
    process_custom_boundary_imports v d =
      { v with
          error_boundary_contexts :=
            (customDeclStep v.config.custom_boundaries
              (v.error_boundary_contexts, v.custom_boundary_config) d).1,
          custom_boundary_config :=
            (customDeclStep v.config.custom_boundaries
              (v.error_boundary_contexts, v.custom_boundary_config) d).2 } := by
  unfold process_custom_boundary_imports customDeclStep
  cases hcb : v.config.custom_boundaries with
  | none => rfl
  | some m => exact foldl_customSetting_eq m d v

theorem processImports_eq : ∀ (items : List ModuleItem) (v : TransformVisitor) (idx : Nat),
    processImports v idx items =
      ({ v with
          react_suspense_contexts := reactFold v.react_suspense_contexts (importDecls items),
          react_import_position := posFold v.react_import_position idx items,
          error_boundary_contexts := (customFold v.config.custom_boundaries
            (v.error_boundary_contexts, v.custom_boundary_config)
            ((importDecls items).map stripDecl)).1,
          custom_boundary_config := (customFold v.config.custom_boundaries
            (v.error_boundary_contexts, v.custom_boundary_config)
            ((importDecls items).map stripDecl)).2 },
        items.map stripItem)
  | [], v, idx => rfl
  | .stmt st :: rest, v, idx => by
    simp only [processImports, importDecls, posFold, List.map, stripItem]
    rw [processImports_eq rest v (idx + 1)]
  | .importDecl d :: rest, v, idx => by
    by_cases hsrc : d.src = "react".toList
    · simp only [processImports, hsrc, if_true, ite_true, process_react_import,
        ne_eq, not_true_eq_false, ite_false, if_false]
      rw [processReactSpecifiers_eq]
      rw [process_custom_boundary_imports_eq]
      rw [processImports_eq rest _ (idx + 1)]
      simp only [importDecls, posFold, List.map, stripItem, stripDecl, hsrc, if_true,
        ite_true, reactFold, customFold, List.foldl_cons]
    · simp only [processImports, hsrc, if_false, ite_false]
      rw [process_custom_boundary_imports_eq]
      rw [processImports_eq rest _ (idx + 1)]
      simp only [importDecls, posFold, List.map, stripItem, stripDecl, hsrc, if_false,
        ite_false, reactFold, customFold, List.foldl_cons]

/-! ### Item-level bookkeeping lemmas -/

theorem insertAt_eq {α : Type} : ∀ (n : Nat) (a : α) (l : List α),
    insertAt n a l = l.take n ++ a :: l.drop n
  | 0, a, l => by cases l <;> rfl
  | n + 1, a, [] => by rfl
  | n + 1, a, x :: l => by
    simp only [insertAt, List.take_succ_cons, List.drop_succ_cons, List.cons_append]
    rw [insertAt_eq n a l]

theorem length_insertAt {α : Type} (n : Nat) (a : α) (l : List α) :
    (insertAt n a l).length = l.length + 1 := by
  rw [insertAt_eq]
  simp
  omega

theorem countTracker_insertAt (n : Nat) (x : ModuleItem) (l : List ModuleItem) :
    countTracker (insertAt n x l) =
      countTracker l + (if x = create_suspense_tracker_import then 1 else 0) := by
  rw [insertAt_eq]
  unfold countTracker
  rw [List.countP_append, List.countP_cons]
  have := List.take_append_drop n l
  calc (List.take n l).countP (fun y => decide (y = create_suspense_tracker_import)) +
        ((List.drop n l).countP (fun y => decide (y = create_suspense_tracker_import)) +
          (if decide (x = create_suspense_tracker_import) = true then 1 else 0)) =
      ((List.take n l ++ List.drop n l).countP
          (fun y => decide (y = create_suspense_tracker_import))) +
        (if decide (x = create_suspense_tracker_import) = true then 1 else 0) := by
        rw [List.countP_append]; omega
    _ = l.countP (fun y => decide (y = create_suspense_tracker_import)) +
        (if x = create_suspense_tracker_import then 1 else 0) := by
        rw [List.take_append_drop]
        congr 1
        by_cases h : x = create_suspense_tracker_import <;> simp [h]

theorem length_visitItems : ∀ (v : TransformVisitor) (items : List ModuleItem),
    (visitItems v items).2.length = items.length
  | v, [] => rfl
  | v, .importDecl d :: rest => by
    simp only [visitItems, List.length_cons]
    rw [length_visitItems v rest]
  | v, .stmt s :: rest => by
    simp only [visitItems, List.length_cons]
    rw [length_visitItems (visitStmt v s).1 rest]

theorem countTracker_cons (x : ModuleItem) (l : List ModuleItem) :
    countTracker (x :: l) =
      countTracker l + (if x = create_suspense_tracker_import then 1 else 0) := by
  unfold countTracker
  rw [List.countP_cons]
  by_cases h : x = create_suspense_tracker_import <;> simp [h]

theorem countTracker_visitItems : ∀ (v : TransformVisitor) (items : List ModuleItem),
    countTracker (visitItems v items).2 = countTracker items
  | v, [] => rfl
  | v, .importDecl d :: rest => by
    simp only [visitItems]
    rw [countTracker_cons, countTracker_cons, countTracker_visitItems v rest]
  | v, .stmt s :: rest => by
    simp only [visitItems]
    rw [countTracker_cons, countTracker_cons,
      countTracker_visitItems (visitStmt v s).1 rest]
    have h1 : (ModuleItem.stmt (visitStmt v s).2 = create_suspense_tracker_import) ↔ False := by
      simp [create_suspense_tracker_import]
    have h2 : (ModuleItem.stmt s = create_suspense_tracker_import) ↔ False := by
      simp [create_suspense_tracker_import]
    rw [if_neg (h1.not.mpr not_false), if_neg (h2.not.mpr not_false)]

theorem importDecls_visitItems : ∀ (v : TransformVisitor) (items : List ModuleItem),
    importDecls (visitItems v items).2 = importDecls items
  | v, [] => rfl
  | v, .importDecl d :: rest => by
    simp only [visitItems, importDecls]
    rw [importDecls_visitItems v rest]
  | v, .stmt s :: rest => by
    simp only [visitItems, importDecls]
    rw [importDecls_visitItems (visitStmt v s).1 rest]

theorem stripDecl_src (d : ImportDecl) : (stripDecl d).src = d.src := by
  unfold stripDecl
  split <;> rfl

theorem stripItem_tracker_iff (x : ModuleItem) :
    stripItem x = create_suspense_tracker_import ↔ x = create_suspense_tracker_import := by
  have hpkg : SUSPENSE_TRACKER_PACKAGE ≠ "react".toList := by decide
  have hsrc : ∀ (dd : ImportDecl),
      ModuleItem.importDecl dd = create_suspense_tracker_import →
      dd.src = SUSPENSE_TRACKER_PACKAGE := by
    intro dd h
    simp only [create_suspense_tracker_import, ModuleItem.importDecl.injEq] at h
    rw [h]
  cases x with
  | stmt s => simp [stripItem, create_suspense_tracker_import]
  | importDecl d =>
    constructor
    · intro heq
      have h1 : (stripDecl d).src = SUSPENSE_TRACKER_PACKAGE := hsrc (stripDecl d) heq
      have h2 : d.src = SUSPENSE_TRACKER_PACKAGE := (stripDecl_src d) ▸ h1
      have h3 : ¬(d.src = "react".toList) := by rw [h2]; exact hpkg
      have h4 : stripDecl d = d := by unfold stripDecl; rw [if_neg h3]
      have h5 : stripItem (ModuleItem.importDecl d) = ModuleItem.importDecl (stripDecl d) := rfl
      rw [h5, h4] at heq
      exact heq
    · intro heq
      have h2 : d.src = SUSPENSE_TRACKER_PACKAGE := hsrc d heq
      have h3 : ¬(d.src = "react".toList) := by rw [h2]; exact hpkg
      have h4 : stripDecl d = d := by unfold stripDecl; rw [if_neg h3]
      show ModuleItem.importDecl (stripDecl d) = _
      rw [h4]
      exact heq

theorem countTracker_mapStrip : ∀ (items : List ModuleItem),
    countTracker (items.map stripItem) = countTracker items
  | [] => rfl
  | x :: rest => by
    simp only [List.map_cons]
    rw [countTracker_cons, countTracker_cons, countTracker_mapStrip rest]
    by_cases h : x = create_suspense_tracker_import
    · rw [if_pos h, if_pos ((stripItem_tracker_iff x).mpr h)]
    · rw [if_neg h, if_neg (fun hh => h ((stripItem_tracker_iff x).mp hh))]

/-! ### Claim C5: exactly one tracker import -/

/-- C5: whenever the traversal has marked at least one rewritten Suspense
element (the `has_suspense_elements` flag of the finished call is set),
exactly one tracker import is inserted into the item list: the number of
items equal to the tracker import grows by exactly one, however many
elements were rewritten. -/
theorem c5_exactly_one_tracker_import (cfg : Config) (ctx : Context)
    (items : List ModuleItem)
    (hflag : (visit_mut_module_items (TransformVisitor.new cfg ctx)
      items).1.has_suspense_elements = true) :
    countTracker (transform cfg ctx items) = countTracker items + 1 := by
  unfold transform
  unfold visit_mut_module_items at hflag ⊢
  by_cases hg : ((TransformVisitor.new cfg ctx).config.enabled.getD
      (decide ((TransformVisitor.new cfg ctx).context.env_name ≠
        Environment.development))) = true
  · rw [hg] at hflag ⊢
    simp only [Bool.not_true, Bool.false_eq_true, if_false, ite_false] at hflag ⊢
    rw [processImports_eq items (TransformVisitor.new cfg ctx) 0] at hflag ⊢
    by_cases hrun : ((({ TransformVisitor.new cfg ctx with
        react_suspense_contexts := reactFold (TransformVisitor.new cfg
          ctx).react_suspense_contexts (importDecls items),
        react_import_position := posFold (TransformVisitor.new cfg
          ctx).react_import_position 0 items,
        error_boundary_contexts := (customFold (TransformVisitor.new cfg
          ctx).config.custom_boundaries
          ((TransformVisitor.new cfg ctx).error_boundary_contexts,
            (TransformVisitor.new cfg ctx).custom_boundary_config)
          ((importDecls items).map stripDecl)).1,
        custom_boundary_config := (customFold (TransformVisitor.new cfg
          ctx).config.custom_boundaries
          ((TransformVisitor.new cfg ctx).error_boundary_contexts,
            (TransformVisitor.new cfg ctx).custom_boundary_config)
          ((importDecls items).map stripDecl)).2 },
        items.map stripItem) : TransformVisitor × List ModuleItem).1.react_suspense_contexts ≠ [] ∨
      (({ TransformVisitor.new cfg ctx with
        react_suspense_contexts := reactFold (TransformVisitor.new cfg
          ctx).react_suspense_contexts (importDecls items),
        react_import_position := posFold (TransformVisitor.new cfg
          ctx).react_import_position 0 items,
        error_boundary_contexts := (customFold (TransformVisitor.new cfg
          ctx).config.custom_boundaries
          ((TransformVisitor.new cfg ctx).error_boundary_contexts,
            (TransformVisitor.new cfg ctx).custom_boundary_config)
          ((importDecls items).map stripDecl)).1,
        custom_boundary_config := (customFold (TransformVisitor.new cfg
          ctx).config.custom_boundaries
          ((TransformVisitor.new cfg ctx).error_boundary_contexts,
            (TransformVisitor.new cfg ctx).custom_boundary_config)
          ((importDecls items).map stripDecl)).2 },
        items.map stripItem) : TransformVisitor × List ModuleItem).1.error_boundary_contexts ≠ [])
    · rw [if_pos hrun] at hflag ⊢
      generalize hP : (visitItems _ (items.map stripItem)) = P at hflag ⊢
      have himp : P.1.suspense_tracker_imported = false := by
        rw [← hP]
        rw [(visitItems_fields _ (items.map stripItem)).2.2.2]
        rfl
      by_cases hc3 : (P.1.has_suspense_elements && !P.1.suspense_tracker_imported) = true
      · rw [if_pos hc3] at hflag ⊢
        rw [countTracker_insertAt]
        rw [if_pos rfl]
        have hcnt : countTracker P.2 = countTracker items := by
          rw [← hP, countTracker_visitItems, countTracker_mapStrip]
        rw [hcnt]
      · exfalso
        rw [if_neg hc3] at hflag
        rw [himp] at hc3
        simp only [Bool.not_false, Bool.and_true] at hc3
        exact hc3 hflag
    · rw [if_neg hrun] at hflag ⊢
      simp only at hflag
      exact absurd hflag (by simp [TransformVisitor.new])
  · exfalso
    have hE : ((TransformVisitor.new cfg ctx).config.enabled.getD
        (decide ((TransformVisitor.new cfg ctx).context.env_name ≠
          Environment.development))) = false := by
      cases hX : ((TransformVisitor.new cfg ctx).config.enabled.getD
          (decide ((TransformVisitor.new cfg ctx).context.env_name ≠
            Environment.development))) with
      | true => exact absurd hX hg
      | false => rfl
    rw [hE] at hflag
    simp only [Bool.not_false, if_true, ite_true] at hflag
    simp [TransformVisitor.new] at hflag

/-- C5 witness: the basic Suspense module sets the flag and gains exactly
one tracker import. -/
theorem c5_exactly_one_tracker_import_witness :
    (visit_mut_module_items (TransformVisitor.new cfgTrue devContext)
      demoModule).1.has_suspense_elements = true ∧
    countTracker (transform cfgTrue devContext demoModule) = countTracker demoModule + 1 :=
  ⟨by decide, c5_exactly_one_tracker_import cfgTrue devContext demoModule (by decide)⟩

/-! ### Claim C6: import injection per boundary kind -/

/-- C6 counterexample: a module whose only boundary is a configured
custom one. The element is rewritten to `CustomBoundary`, yet no import
whatsoever is injected: the item count stays at two and the import list
is untouched, so the wrapper's import is missing. -/
theorem c6_custom_rewrite_injects_no_import_counterexample :
    transform cfgCustom devContext customModule =
      [customImport,
        .stmt (.expr (.jsx (.mk 240 (.ident ⟨"CustomBoundary".toList, 0⟩)
          (.attrExpr "component".toList (.ident ⟨"MyErrorBoundary".toList, 1⟩)
            (.attrLit "id".toList "my/file.tsx-MyErrorBoundary:4".toList .nil))
          (some (.ident ⟨"CustomBoundary".toList, 0⟩)) .nil)))] ∧
    (transform cfgCustom devContext customModule).length = customModule.length ∧
    importDecls (transform cfgCustom devContext customModule) = importDecls customModule := by
  refine ⟨by decide, by decide, by decide⟩

/-- C6 (amended): only the react-Suspense kind drives the import
injector. When the finished call never raised `has_suspense_elements` —
in particular when only custom boundary elements were rewritten — no
item is inserted: the module keeps its length and its tracker-import
count. -/
theorem c6_injection_only_for_suspense_kind (cfg : Config) (ctx : Context)
    (items : List ModuleItem)
    (hflag : (visit_mut_module_items (TransformVisitor.new cfg ctx)
      items).1.has_suspense_elements = false) :
    (transform cfg ctx items).length = items.length ∧
    countTracker (transform cfg ctx items) = countTracker items := by
  unfold transform
  unfold visit_mut_module_items at hflag ⊢
  by_cases hg : ((TransformVisitor.new cfg ctx).config.enabled.getD
      (decide ((TransformVisitor.new cfg ctx).context.env_name ≠
        Environment.development))) = true
  · rw [hg] at hflag ⊢
    simp only [Bool.not_true, Bool.false_eq_true, if_false, ite_false] at hflag ⊢
    rw [processImports_eq items (TransformVisitor.new cfg ctx) 0] at hflag ⊢
    split at hflag
    next hrun =>
      rw [if_pos hrun]
      generalize hP : (visitItems _ (items.map stripItem)) = P at hflag ⊢
      by_cases hc3 : (P.1.has_suspense_elements && !P.1.suspense_tracker_imported) = true
      · exfalso
        rw [if_pos hc3] at hflag
        simp only at hflag
        rw [hflag] at hc3
        simp at hc3
      · rw [if_neg hc3]
        constructor
        · rw [← hP, length_visitItems, List.length_map]
        · rw [← hP, countTracker_visitItems, countTracker_mapStrip]
    next hrun =>
      rw [if_neg hrun]
      split
      next hc3 =>
        exfalso
        simp [TransformVisitor.new] at hc3
      next hc3 =>
        exact ⟨List.length_map _ _, countTracker_mapStrip items⟩
  · have hE : ((TransformVisitor.new cfg ctx).config.enabled.getD
        (decide ((TransformVisitor.new cfg ctx).context.env_name ≠
          Environment.development))) = false := by
      cases hX : ((TransformVisitor.new cfg ctx).config.enabled.getD
          (decide ((TransformVisitor.new cfg ctx).context.env_name ≠
            Environment.development))) with
      | true => exact absurd hX hg
      | false => rfl
    rw [hE]
    simp only [Bool.not_false, if_true, ite_true]
    simp

/-- C6 (amended) witness: the custom-only module keeps its two items. -/
theorem c6_injection_only_for_suspense_kind_witness :
    (visit_mut_module_items (TransformVisitor.new cfgCustom devContext)
      customModule).1.has_suspense_elements = false ∧
    (transform cfgCustom devContext customModule).length = customModule.length ∧
    countTracker (transform cfgCustom devContext customModule) = countTracker customModule :=
  ⟨by decide, c6_injection_only_for_suspense_kind cfgCustom devContext customModule (by decide)⟩

/-! ### Claim C4: gate on, boundary import present, zero matches -/

/-- C4 counterexample: gate on, `import { Suspense, useEffect } from
"react"` present, no JSX at all. The transform is not a no-op: the
`Suspense` specifier is removed from the import in the first pass even
though zero elements matched. -/
theorem c4_import_stripped_counterexample :
    transform cfgTrue devContext unusedSuspenseModule =
      [.importDecl ⟨"react".toList, [.named ⟨⟨"useEffect".toList, 2⟩, none⟩]⟩,
        .stmt (.other 0)] ∧
    importDecls (transform cfgTrue devContext unusedSuspenseModule) ≠
      importDecls unusedSuspenseModule := by
  refine ⟨by decide, by decide⟩

/-- C4 (amended): with the gate on and zero matching elements (relative
to the binding sets the first pass collects), the transform still strips
every `Suspense` specifier from every react import, and does nothing
else: the output is exactly the stripped item list, and no tracker
injection happens. -/
theorem c4_zero_matches_strips_only (cfg : Config) (ctx : Context)
    (items : List ModuleItem)
    (hgate : cfg.enabled.getD (decide (ctx.env_name ≠ Environment.development)) = true)
    (hnm : itemsAnyTag (matchPred
        ((customFold cfg.custom_boundaries ([], none)
          ((importDecls items).map stripDecl)).2).isSome
        (customFold cfg.custom_boundaries ([], none)
          ((importDecls items).map stripDecl)).1
        (reactFold [] (importDecls items)))
      (items.map stripItem) = false) :
    transform cfg ctx items = items.map stripItem := by
  unfold transform visit_mut_module_items
  have hg : ((TransformVisitor.new cfg ctx).config.enabled.getD
      (decide ((TransformVisitor.new cfg ctx).context.env_name ≠
        Environment.development))) = true := hgate
  rw [hg]
  simp only [Bool.not_true, Bool.false_eq_true, if_false, ite_false]
  rw [processImports_eq items (TransformVisitor.new cfg ctx) 0]
  split
  next hrun =>
    rw [visitItems_noMatch _ (items.map stripItem) hnm]
    split
    next hc3 =>
      exfalso
      simp [TransformVisitor.new] at hc3
    next hc3 => rfl
  next hrun =>
    split
    next hc3 =>
      exfalso
      simp [TransformVisitor.new] at hc3
    next hc3 => rfl

/-- C4 (amended) witness: the fixture with an unused `Suspense` import
and no JSX satisfies the hypotheses; its transform is the stripped list. -/
theorem c4_zero_matches_strips_only_witness :
    (cfgTrue : Config).enabled.getD
      (decide ((devContext : Context).env_name ≠ Environment.development)) = true ∧
    itemsAnyTag (matchPred
        ((customFold (cfgTrue : Config).custom_boundaries ([], none)
          ((importDecls unusedSuspenseModule).map stripDecl)).2).isSome
        (customFold (cfgTrue : Config).custom_boundaries ([], none)
          ((importDecls unusedSuspenseModule).map stripDecl)).1
        (reactFold [] (importDecls unusedSuspenseModule)))
      (unusedSuspenseModule.map stripItem) = false ∧
    transform cfgTrue devContext unusedSuspenseModule =
      unusedSuspenseModule.map stripItem :=
  ⟨by decide, by decide,
    c4_zero_matches_strips_only cfgTrue devContext unusedSuspenseModule
      (by decide) (by decide)⟩

/-! ### Support for idempotence (claim C9) -/

theorem strippedSpecs_idem : ∀ (specs : List ImportSpecifier),
    strippedSpecs (strippedSpecs specs) = strippedSpecs specs
  | [] => rfl
  | spec :: rest => by
    cases spec with
    | named n =>
      by_cases h : externalName n = "Suspense".toList
      · simp only [strippedSpecs, h, if_true, ite_true]
        exact strippedSpecs_idem rest
      · simp only [strippedSpecs, h, if_false, ite_false]
        rw [strippedSpecs_idem rest]
    | defaultSpec l =>
      simp only [strippedSpecs]
      rw [strippedSpecs_idem rest]
    | namespaceSpec l =>
      simp only [strippedSpecs]
      rw [strippedSpecs_idem rest]

theorem stripDecl_idem (d : ImportDecl) : stripDecl (stripDecl d) = stripDecl d := by
  unfold stripDecl
  by_cases h : d.src = "react".toList
  · simp only [h, if_true, ite_true, strippedSpecs_idem]
  · simp only [h, if_false, ite_false]

theorem stripItem_idem (x : ModuleItem) : stripItem (stripItem x) = stripItem x := by
  cases x with
  | importDecl d => simp only [stripItem, stripDecl_idem]
  | stmt s => rfl

theorem reactCtxtsAfter_stripped : ∀ (specs : List ImportSpecifier) (acc : List Ctxt),
    reactCtxtsAfter acc (strippedSpecs specs) = acc
  | [], acc => rfl
  | spec :: rest, acc => by
    cases spec with
    | named n =>
      by_cases h : externalName n = "Suspense".toList
      · simp only [strippedSpecs, h, if_true, ite_true]
        exact reactCtxtsAfter_stripped rest acc
      · simp only [strippedSpecs, h, if_false, ite_false, reactCtxtsAfter]
        exact reactCtxtsAfter_stripped rest acc
    | defaultSpec l =>
      simp only [strippedSpecs, reactCtxtsAfter]
      exact reactCtxtsAfter_stripped rest acc
    | namespaceSpec l =>
      simp only [strippedSpecs, reactCtxtsAfter]
      exact reactCtxtsAfter_stripped rest acc

theorem reactFold_append : ∀ (l1 l2 : List ImportDecl) (acc : List Ctxt),
    reactFold acc (l1 ++ l2) = reactFold (reactFold acc l1) l2
  | [], l2, acc => rfl
  | d :: rest, l2, acc => by
    by_cases h : d.src = "react".toList
    · simp only [List.cons_append, reactFold, h, if_true, ite_true]
      exact reactFold_append rest l2 _
    · simp only [List.cons_append, reactFold, h, if_false, ite_false]
      exact reactFold_append rest l2 acc

theorem reactFold_strippedDecls : ∀ (decls : List ImportDecl) (acc : List Ctxt),
    reactFold acc (decls.map stripDecl) = acc
  | [], acc => rfl
  | d :: rest, acc => by
    by_cases h : d.src = "react".toList
    · have hsrc : (stripDecl d).src = "react".toList := by rw [stripDecl_src]; exact h
      simp only [List.map_cons, reactFold, hsrc, if_true, ite_true]
      have hspec : (stripDecl d).specifiers = strippedSpecs d.specifiers := by
        unfold stripDecl
        rw [if_pos h]
      rw [hspec, reactCtxtsAfter_stripped]
      exact reactFold_strippedDecls rest acc
    · have hsrc : ¬((stripDecl d).src = "react".toList) := by rw [stripDecl_src]; exact h
      simp only [List.map_cons, reactFold, hsrc, if_false, ite_false]
      exact reactFold_strippedDecls rest acc

theorem importDecls_append : ∀ (l1 l2 : List ModuleItem),
    importDecls (l1 ++ l2) = importDecls l1 ++ importDecls l2
  | [], l2 => rfl
  | .importDecl d :: rest, l2 => by
    simp only [List.cons_append, importDecls, List.append_eq,
      importDecls_append rest l2]
  | .stmt st :: rest, l2 => by
    simp only [List.cons_append, importDecls, List.append_eq,
      importDecls_append rest l2]

theorem importDecls_mapStrip : ∀ (l : List ModuleItem),
    importDecls (l.map stripItem) = (importDecls l).map stripDecl
  | [] => rfl
  | .importDecl d :: rest => by
    simp only [List.map_cons, stripItem, importDecls, List.map_cons,
      importDecls_mapStrip rest]
  | .stmt st :: rest => by
    simp only [List.map_cons, stripItem, importDecls, importDecls_mapStrip rest]

theorem map_insertAt {α β : Type} (f : α → β) : ∀ (n : Nat) (a : α) (l : List α),
    (insertAt n a l).map f = insertAt n (f a) (l.map f)
  | 0, a, l => by cases l <;> rfl
  | n + 1, a, [] => rfl
  | n + 1, a, x :: l => by
    simp only [insertAt, List.map_cons]
    rw [map_insertAt f n a l]

theorem stripItem_trackerImport :
    stripItem create_suspense_tracker_import = create_suspense_tracker_import := by decide

theorem mapStrip_visitItems : ∀ (v : TransformVisitor) (its : List ModuleItem),
    its.map stripItem = its →
    (visitItems v its).2.map stripItem = (visitItems v its).2
  | v, [], _ => rfl
  | v, .importDecl d :: rest, h => by
    simp only [List.map_cons, List.cons.injEq] at h
    show (ModuleItem.importDecl d :: (visitItems v rest).2).map stripItem =
      ModuleItem.importDecl d :: (visitItems v rest).2
    rw [List.map_cons, h.1, mapStrip_visitItems v rest h.2]
  | v, .stmt st :: rest, h => by
    simp only [List.map_cons, List.cons.injEq] at h
    show (ModuleItem.stmt (visitStmt v st).2 ::
        (visitItems (visitStmt v st).1 rest).2).map stripItem =
      ModuleItem.stmt (visitStmt v st).2 :: (visitItems (visitStmt v st).1 rest).2
    rw [List.map_cons, mapStrip_visitItems (visitStmt v st).1 rest h.2]
    rfl

theorem mapStrip_mapStrip : ∀ (l : List ModuleItem),
    (l.map stripItem).map stripItem = l.map stripItem
  | [] => rfl
  | x :: rest => by
    simp only [List.map_cons, stripItem_idem, mapStrip_mapStrip rest]

theorem insertCtxt_mem (x c : Ctxt) (s : List Ctxt) :
    x ∈ insertCtxt c s ↔ x = c ∨ x ∈ s := by
  unfold insertCtxt
  by_cases h : c ∈ s
  · rw [if_pos h]
    constructor
    · intro hx; exact Or.inr hx
    · rintro (hx | hx)
      · rw [hx]; exact h
      · exact hx
  · rw [if_neg h]
    exact List.mem_cons

theorem customSpecStep_nonzero (sCfg : CustomBoundarySetting) (st : CustomState)
    (spec : ImportSpecifier) (h0 : (0 : Ctxt) ∉ st.1) (hs : specLocalCtxt spec ≠ 0) :
    (0 : Ctxt) ∉ (customSpecStep sCfg st spec).1 := by
  cases spec with
  | named n =>
    by_cases h : externalName n = sCfg.component
    · simp only [customSpecStep, h, if_true, ite_true]
      rw [insertCtxt_mem]
      rintro (hx | hx)
      · exact hs hx.symm
      · exact h0 hx
    · simp only [customSpecStep, h, if_false, ite_false]
      exact h0
  | defaultSpec l =>
    by_cases h : l.sym = sCfg.component
    · simp only [customSpecStep, h, if_true, ite_true]
      rw [insertCtxt_mem]
      rintro (hx | hx)
      · exact hs hx.symm
      · exact h0 hx
    · simp only [customSpecStep, h, if_false, ite_false]
      exact h0
  | namespaceSpec l => exact h0

theorem foldl_customSpecStep_nonzero :
    ∀ (specs : List ImportSpecifier) (sCfg : CustomBoundarySetting) (st : CustomState),
      (0 : Ctxt) ∉ st.1 → (∀ spec ∈ specs, specLocalCtxt spec ≠ 0) →
      (0 : Ctxt) ∉ (specs.foldl (customSpecStep sCfg) st).1
  | [], _, st, h0, _ => h0
  | spec :: rest, sCfg, st, h0, hs => by
    simp only [List.foldl_cons]
    exact foldl_customSpecStep_nonzero rest sCfg _
      (customSpecStep_nonzero sCfg st spec h0 (hs spec (List.mem_cons_self _ _)))
      (fun sp hsp => hs sp (List.mem_cons_of_mem _ hsp))

theorem customSettingStep_nonzero (d : ImportDecl) (st : CustomState)
    (sCfg : CustomBoundarySetting) (h0 : (0 : Ctxt) ∉ st.1)
    (hs : ∀ spec ∈ d.specifiers, specLocalCtxt spec ≠ 0) :
    (0 : Ctxt) ∉ (customSettingStep d st sCfg).1 := by
  unfold customSettingStep
  by_cases h : sCfg.from_ = d.src
  · rw [if_pos h]
    exact foldl_customSpecStep_nonzero d.specifiers sCfg st h0 hs
  · rw [if_neg h]
    exact h0

theorem customDeclStep_nonzero (cbs : Option (List CustomBoundarySetting))
    (st : CustomState) (d : ImportDecl) (h0 : (0 : Ctxt) ∉ st.1)
    (hs : ∀ spec ∈ d.specifiers, specLocalCtxt spec ≠ 0) :
    (0 : Ctxt) ∉ (customDeclStep cbs st d).1 := by
  unfold customDeclStep
  cases cbs with
  | none => exact h0
  | some m =>
    induction m generalizing st with
    | nil => exact h0
    | cons sCfg rest ih =>
      simp only [List.foldl_cons]
      exact ih _ (customSettingStep_nonzero d st sCfg h0 hs)

theorem customFold_nonzero :
    ∀ (decls : List ImportDecl) (cbs : Option (List CustomBoundarySetting))
      (st : CustomState), (0 : Ctxt) ∉ st.1 →
      (∀ d ∈ decls, ∀ spec ∈ d.specifiers, specLocalCtxt spec ≠ 0) →
      (0 : Ctxt) ∉ (customFold cbs st decls).1
  | [], _, st, h0, _ => h0
  | d :: rest, cbs, st, h0, hs => by
    unfold customFold
    simp only [List.foldl_cons]
    exact customFold_nonzero rest cbs _
      (customDeclStep_nonzero cbs st d h0 (hs d (List.mem_cons_self _ _)))
      (fun dd hdd => hs dd (List.mem_cons_of_mem _ hdd))

theorem mem_strippedSpecs : ∀ (specs : List ImportSpecifier) (spec : ImportSpecifier),
    spec ∈ strippedSpecs specs → spec ∈ specs
  | [], _, h => absurd h (List.not_mem_nil _)
  | sp :: rest, spec, h => by
    cases sp with
    | named n =>
      by_cases hn : externalName n = "Suspense".toList
      · simp only [strippedSpecs, hn, if_true, ite_true] at h
        exact List.mem_cons_of_mem _ (mem_strippedSpecs rest spec h)
      · simp only [strippedSpecs, hn, if_false, ite_false] at h
        rcases List.mem_cons.mp h with h1 | h2
        · rw [h1]; exact List.mem_cons_self _ _
        · exact List.mem_cons_of_mem _ (mem_strippedSpecs rest spec h2)
    | defaultSpec l =>
      simp only [strippedSpecs] at h
      rcases List.mem_cons.mp h with h1 | h2
      · rw [h1]; exact List.mem_cons_self _ _
      · exact List.mem_cons_of_mem _ (mem_strippedSpecs rest spec h2)
    | namespaceSpec l =>
      simp only [strippedSpecs] at h
      rcases List.mem_cons.mp h with h1 | h2
      · rw [h1]; exact List.mem_cons_self _ _
      · exact List.mem_cons_of_mem _ (mem_strippedSpecs rest spec h2)

theorem mem_declsLocalCtxts : ∀ (items : List ModuleItem) (d : ImportDecl)
    (spec : ImportSpecifier), d ∈ importDecls items → spec ∈ d.specifiers →
    specLocalCtxt spec ∈ declsLocalCtxts (importDecls items)
  | [], d, spec, hd, _ => absurd hd (List.not_mem_nil _)
  | .importDecl dd :: rest, d, spec, hd, hspec => by
    simp only [importDecls] at hd ⊢
    simp only [declsLocalCtxts, List.mem_append]
    rcases List.mem_cons.mp hd with h1 | h2
    · left
      rw [← h1]
      exact List.mem_map_of_mem specLocalCtxt hspec
    · right
      exact mem_declsLocalCtxts rest d spec h2 hspec
  | .stmt st :: rest, d, spec, hd, hspec => by
    simp only [importDecls] at hd ⊢
    exact mem_declsLocalCtxts rest d spec hd hspec

theorem specLocalCtxts_stripDecls (items : List ModuleItem)
    (hhyg : hygienicImports items) :
    ∀ d ∈ (importDecls items).map stripDecl, ∀ spec ∈ d.specifiers,
      specLocalCtxt spec ≠ 0 := by
  intro d hd spec hspec
  rcases List.mem_map.mp hd with ⟨d0, hd0, hstrip⟩
  have hspec0 : spec ∈ d0.specifiers := by
    rw [← hstrip] at hspec
    unfold stripDecl at hspec
    by_cases h : d0.src = "react".toList
    · rw [if_pos h] at hspec
      exact mem_strippedSpecs d0.specifiers spec hspec
    · rw [if_neg h] at hspec
      exact hspec
  exact hhyg _ (mem_declsLocalCtxts items d0 spec hd0 hspec0)

mutual
/-- Pointwise-equal tag predicates see the same expressions. -/
theorem exprAnyTag_congr : ∀ (p q : JSXElementName → Bool)
    (hp : ∀ n, p n = q n) (e : Expr), exprAnyTag p e = exprAnyTag q e
  | _, _, _, .ident i => rfl
  | p, q, hp, .jsx e => by
    simp only [exprAnyTag]
    exact elemAnyTag_congr p q hp e
  | _, _, _, .other n => rfl
/-- Pointwise-equal tag predicates see the same attribute chains. -/
theorem attrsAnyTag_congr : ∀ (p q : JSXElementName → Bool)
    (hp : ∀ n, p n = q n) (a : AttrList), attrsAnyTag p a = attrsAnyTag q a
  | _, _, _, .nil => rfl
  | p, q, hp, .attrNoVal n r => by
    simp only [attrsAnyTag]
    exact attrsAnyTag_congr p q hp r
  | p, q, hp, .attrLit n v r => by
    simp only [attrsAnyTag]
    exact attrsAnyTag_congr p q hp r
  | p, q, hp, .attrExpr n e r => by
    simp only [attrsAnyTag]
    rw [exprAnyTag_congr p q hp e, attrsAnyTag_congr p q hp r]
  | p, q, hp, .spread e r => by
    simp only [attrsAnyTag]
    rw [exprAnyTag_congr p q hp e, attrsAnyTag_congr p q hp r]
/-- Pointwise-equal tag predicates see the same child lists. -/
theorem childrenAnyTag_congr : ∀ (p q : JSXElementName → Bool)
    (hp : ∀ n, p n = q n) (c : ChildList), childrenAnyTag p c = childrenAnyTag q c
  | _, _, _, .nil => rfl
  | p, q, hp, .elem e r => by
    simp only [childrenAnyTag]
    rw [elemAnyTag_congr p q hp e, childrenAnyTag_congr p q hp r]
  | p, q, hp, .text s r => by
    simp only [childrenAnyTag]
    exact childrenAnyTag_congr p q hp r
  | p, q, hp, .exprChild e r => by
    simp only [childrenAnyTag]
    rw [exprAnyTag_congr p q hp e, childrenAnyTag_congr p q hp r]
/-- Pointwise-equal tag predicates see the same elements. -/
theorem elemAnyTag_congr : ∀ (p q : JSXElementName → Bool)
    (hp : ∀ n, p n = q n) (e : JSXElement), elemAnyTag p e = elemAnyTag q e
  | p, q, hp, .mk lo name attrs closing children => by
    simp only [elemAnyTag]
    rw [hp name, attrsAnyTag_congr p q hp attrs, childrenAnyTag_congr p q hp children]
end

/-- Pointwise-equal tag predicates see the same statements. -/
theorem stmtAnyTag_congr (p q : JSXElementName → Bool) (hp : ∀ n, p n = q n)
    (s : Stmt) : stmtAnyTag p s = stmtAnyTag q s := by
  cases s with
  | expr e =>
    simp only [stmtAnyTag]
    exact exprAnyTag_congr p q hp e
  | other n => rfl

/-- Pointwise-equal tag predicates see the same modules. -/
theorem itemsAnyTag_congr : ∀ (p q : JSXElementName → Bool)
    (hp : ∀ n, p n = q n) (items : List ModuleItem),
    itemsAnyTag p items = itemsAnyTag q items
  | _, _, _, [] => rfl
  | p, q, hp, .importDecl d :: rest => by
    simp only [itemsAnyTag]
    exact itemsAnyTag_congr p q hp rest
  | p, q, hp, .stmt s :: rest => by
    simp only [itemsAnyTag]
    rw [stmtAnyTag_congr p q hp s, itemsAnyTag_congr p q hp rest]

/-- The react-Suspense match predicate is empty for an empty context
set. -/
theorem matchPred_nil_eq (stored : Bool) (ebCtxts : List Ctxt)
    (name : JSXElementName) :
    matchPred stored ebCtxts [] name = customTagPred stored ebCtxts name := by
  unfold matchPred suspTagPred
  cases name with
  | ident i => simp
  | member o p => simp

theorem itemsAnyTag_append (p : JSXElementName → Bool) :
    ∀ (l1 l2 : List ModuleItem),
      itemsAnyTag p (l1 ++ l2) = (itemsAnyTag p l1 || itemsAnyTag p l2)
  | [], l2 => rfl
  | .importDecl d :: rest, l2 => by
    simp only [List.cons_append, itemsAnyTag, List.append_eq,
      itemsAnyTag_append p rest l2]
  | .stmt s :: rest, l2 => by
    simp only [List.cons_append, itemsAnyTag, List.append_eq,
      itemsAnyTag_append p rest l2, Bool.or_assoc]

/-- The foldl over configured settings ignores the tracker import when no
setting is sourced from the tracker package. -/
theorem foldl_settingStep_tracker_neutral :
    ∀ (m : List CustomBoundarySetting) (st : CustomState),
      (∀ s ∈ m, s.from_ ≠ SUSPENSE_TRACKER_PACKAGE) →
      m.foldl (customSettingStep
        ⟨SUSPENSE_TRACKER_PACKAGE,
          [.named ⟨⟨SUSPENSE_TRACKER_IMPORT_NAME, 0⟩, none⟩]⟩) st = st
  | [], st, _ => rfl
  | sCfg :: rest, st, htf => by
    simp only [List.foldl_cons]
    have hstep : customSettingStep
        ⟨SUSPENSE_TRACKER_PACKAGE,
          [.named ⟨⟨SUSPENSE_TRACKER_IMPORT_NAME, 0⟩, none⟩]⟩ st sCfg = st := by
      unfold customSettingStep
      rw [if_neg (htf sCfg (List.mem_cons_self _ _))]
    rw [hstep]
    exact foldl_settingStep_tracker_neutral rest st
      (fun s2 hs2 => htf s2 (List.mem_cons_of_mem _ hs2))

/-- Under a tracker-free configuration, the custom-boundary scan ignores
the injected tracker import. -/
theorem customDeclStep_tracker_neutral (cfg : Config) (htf : trackerFreeConfig cfg)
    (st : CustomState) :
    customDeclStep cfg.custom_boundaries st
      ⟨SUSPENSE_TRACKER_PACKAGE,
        [.named ⟨⟨SUSPENSE_TRACKER_IMPORT_NAME, 0⟩, none⟩]⟩ = st := by
  unfold customDeclStep
  unfold trackerFreeConfig at htf
  cases hcb : cfg.custom_boundaries with
  | none => rfl
  | some m =>
    rw [hcb] at htf
    exact foldl_settingStep_tracker_neutral m st htf

theorem mem_insertAt {α : Type} (x a : α) : ∀ (n : Nat) (l : List α),
    x ∈ insertAt n a l → x = a ∨ x ∈ l := by
  intro n l h
  rw [insertAt_eq] at h
  rcases List.mem_append.mp h with h1 | h2
  · exact Or.inr (List.mem_of_mem_take h1)
  · rcases List.mem_cons.mp h2 with h3 | h4
    · exact Or.inl h3
    · exact Or.inr (List.mem_of_mem_drop h4)

theorem mem_importDecls : ∀ (l : List ModuleItem) (d : ImportDecl),
    d ∈ importDecls l → ModuleItem.importDecl d ∈ l
  | [], d, h => absurd h (List.not_mem_nil _)
  | .importDecl dd :: rest, d, h => by
    simp only [importDecls] at h
    rcases List.mem_cons.mp h with h1 | h2
    · rw [h1]; exact List.mem_cons_self _ _
    · exact List.mem_cons_of_mem _ (mem_importDecls rest d h2)
  | .stmt st :: rest, d, h => by
    simp only [importDecls] at h
    exact List.mem_cons_of_mem _ (mem_importDecls rest d h)

theorem hasSusp_stripped : ∀ (specs : List ImportSpecifier),
    hasSuspSpecifier (strippedSpecs specs) = false
  | [] => rfl
  | spec :: rest => by
    cases spec with
    | named n =>
      by_cases h : externalName n = "Suspense".toList
      · simp only [strippedSpecs, h, if_true, ite_true]
        exact hasSusp_stripped rest
      · simp only [strippedSpecs, h, if_false, ite_false, hasSuspSpecifier]
        exact hasSusp_stripped rest
    | defaultSpec l =>
      simp only [strippedSpecs, hasSuspSpecifier]
      exact hasSusp_stripped rest
    | namespaceSpec l =>
      simp only [strippedSpecs, hasSuspSpecifier]
      exact hasSusp_stripped rest

theorem reactCtxtsAfter_of_noSusp : ∀ (specs : List ImportSpecifier),
    hasSuspSpecifier specs = false → ∀ (acc : List Ctxt),
    reactCtxtsAfter acc specs = acc
  | [], _, acc => rfl
  | spec :: rest, h, acc => by
    cases spec with
    | named n =>
      by_cases hn : externalName n = "Suspense".toList
      · simp only [hasSuspSpecifier, hn, if_true, ite_true] at h
        exact absurd h (by simp)
      · simp only [hasSuspSpecifier, hn, if_false, ite_false] at h
        simp only [reactCtxtsAfter, hn, if_false, ite_false]
        exact reactCtxtsAfter_of_noSusp rest h acc
    | defaultSpec l =>
      simp only [hasSuspSpecifier] at h
      simp only [reactCtxtsAfter]
      exact reactCtxtsAfter_of_noSusp rest h acc
    | namespaceSpec l =>
      simp only [hasSuspSpecifier] at h
      simp only [reactCtxtsAfter]
      exact reactCtxtsAfter_of_noSusp rest h acc

theorem reactFold_id_of : ∀ (decls : List ImportDecl),
    (∀ d ∈ decls, d.src = "react".toList → hasSuspSpecifier d.specifiers = false) →
    ∀ (acc : List Ctxt), reactFold acc decls = acc
  | [], _, acc => rfl
  | d :: rest, h, acc => by
    by_cases hsrc : d.src = "react".toList
    · simp only [reactFold, hsrc, if_true, ite_true]
      rw [reactCtxtsAfter_of_noSusp d.specifiers
        (h d (List.mem_cons_self _ _) hsrc) acc]
      exact reactFold_id_of rest (fun dd hdd => h dd (List.mem_cons_of_mem _ hdd)) acc
    · simp only [reactFold, hsrc, if_false, ite_false]
      exact reactFold_id_of rest (fun dd hdd => h dd (List.mem_cons_of_mem _ hdd)) acc

theorem importDecls_insertAt_tracker (k : Nat) (l : List ModuleItem) :
    importDecls (insertAt k create_suspense_tracker_import l) =
      importDecls (l.take k) ++
        (⟨SUSPENSE_TRACKER_PACKAGE,
          [.named ⟨⟨SUSPENSE_TRACKER_IMPORT_NAME, 0⟩, none⟩]⟩ : ImportDecl) ::
        importDecls (l.drop k) := by
  rw [insertAt_eq, importDecls_append]
  rfl

theorem customFold_insertAt_tracker (cfg : Config) (htf : trackerFreeConfig cfg)
    (st : CustomState) (k : Nat) (l : List ModuleItem) :
    customFold cfg.custom_boundaries st
      (importDecls (insertAt k create_suspense_tracker_import l)) =
      customFold cfg.custom_boundaries st (importDecls l) := by
  rw [importDecls_insertAt_tracker]
  unfold customFold
  rw [List.foldl_append, List.foldl_cons]
  rw [customDeclStep_tracker_neutral cfg htf]
  rw [← List.foldl_append, ← importDecls_append, List.take_append_drop]

theorem reactFold_insertAt_tracker_of (k : Nat) (l : List ModuleItem)
    (h : ∀ d ∈ importDecls l, d.src = "react".toList →
      hasSuspSpecifier d.specifiers = false) (acc : List Ctxt) :
    reactFold acc (importDecls (insertAt k create_suspense_tracker_import l)) = acc := by
  apply reactFold_id_of
  intro d hd hsrc
  rcases (by
      rw [importDecls_insertAt_tracker] at hd
      rcases List.mem_append.mp hd with h1 | h2
      · exact Or.inr (by
          rw [← List.take_append_drop k l, importDecls_append]
          exact List.mem_append.mpr (Or.inl h1))
      · rcases List.mem_cons.mp h2 with h3 | h4
        · exact Or.inl h3
        · exact Or.inr (by
            rw [← List.take_append_drop k l, importDecls_append]
            exact List.mem_append.mpr (Or.inr h4))
    : d = (⟨SUSPENSE_TRACKER_PACKAGE,
        [.named ⟨⟨SUSPENSE_TRACKER_IMPORT_NAME, 0⟩, none⟩]⟩ : ImportDecl) ∨
      d ∈ importDecls l) with htrk | hmem
  · exfalso
    rw [htrk] at hsrc
    exact absurd hsrc (by decide)
  · exact h d hmem hsrc

theorem itemsAnyTag_insertAt_tracker (p : JSXElementName → Bool) (k : Nat)
    (l : List ModuleItem) :
    itemsAnyTag p (insertAt k create_suspense_tracker_import l) = itemsAnyTag p l := by
  rw [insertAt_eq, itemsAnyTag_append]
  have h1 : itemsAnyTag p (create_suspense_tracker_import :: l.drop k) =
      itemsAnyTag p (l.drop k) := rfl
  rw [h1, ← itemsAnyTag_append, List.take_append_drop]

theorem noSusp_stripDecls (decls : List ImportDecl) :
    ∀ d ∈ decls.map stripDecl, d.src = "react".toList →
      hasSuspSpecifier d.specifiers = false := by
  intro d hd hsrc
  rcases List.mem_map.mp hd with ⟨d0, hd0, hstrip⟩
  rw [← hstrip]
  rw [← hstrip, stripDecl_src] at hsrc
  unfold stripDecl
  rw [if_pos hsrc]
  exact hasSusp_stripped d0.specifiers

/-- A module that is already in post-transform shape (react imports
stripped, no react-Suspense context collectable, and no custom-boundary
tag matching the collectable binding set when that set is non-empty) is
left unchanged by the transform. -/
theorem transform_stable (cfg : Config) (ctx : Context) (l : List ModuleItem)
    (h1 : l.map stripItem = l)
    (h2 : reactFold [] (importDecls l) = [])
    (h3 : (customFold cfg.custom_boundaries ([], none) (importDecls l)).1 ≠ [] →
      itemsAnyTag (customTagPred
        (customFold cfg.custom_boundaries ([], none) (importDecls l)).2.isSome
        (customFold cfg.custom_boundaries ([], none) (importDecls l)).1) l = false) :
    transform cfg ctx l = l := by
  unfold transform visit_mut_module_items
  by_cases hg : ((TransformVisitor.new cfg ctx).config.enabled.getD
      (decide ((TransformVisitor.new cfg ctx).context.env_name ≠
        Environment.development))) = true
  · rw [hg]
    simp only [Bool.not_true, Bool.false_eq_true, if_false, ite_false]
    rw [processImports_eq l (TransformVisitor.new cfg ctx) 0]
    have hmap : (importDecls l).map stripDecl = importDecls l := by
      rw [← importDecls_mapStrip, h1]
    have h2x : reactFold (TransformVisitor.new cfg ctx).react_suspense_contexts
        (importDecls l) = [] := h2
    rw [h1, hmap, h2x]
    generalize hS : (({ TransformVisitor.new cfg ctx with
        react_suspense_contexts := [],
        react_import_position :=
          posFold (TransformVisitor.new cfg ctx).react_import_position 0 l,
        error_boundary_contexts := (customFold
          (TransformVisitor.new cfg ctx).config.custom_boundaries
          ((TransformVisitor.new cfg ctx).error_boundary_contexts,
            (TransformVisitor.new cfg ctx).custom_boundary_config)
          (importDecls l)).1,
        custom_boundary_config := (customFold
          (TransformVisitor.new cfg ctx).config.custom_boundaries
          ((TransformVisitor.new cfg ctx).error_boundary_contexts,
            (TransformVisitor.new cfg ctx).custom_boundary_config)
          (importDecls l)).2 },
      l) : TransformVisitor × List ModuleItem) = P
    have hP2 : P.2 = l := by rw [← hS]
    have hPrc : P.1.react_suspense_contexts = [] := by rw [← hS]
    have hPeb : P.1.error_boundary_contexts =
        (customFold cfg.custom_boundaries ([], none) (importDecls l)).1 := by
      rw [← hS]; rfl
    have hPcbc : P.1.custom_boundary_config =
        (customFold cfg.custom_boundaries ([], none) (importDecls l)).2 := by
      rw [← hS]; rfl
    have hPhas : P.1.has_suspense_elements = false := by rw [← hS]; rfl
    have hc3 : ¬((P.1.has_suspense_elements &&
        !P.1.suspense_tracker_imported) = true) := by
      rw [hPhas]; simp
    by_cases hrun : (P.1.react_suspense_contexts ≠ [] ∨
        P.1.error_boundary_contexts ≠ [])
    · rw [if_pos hrun]
      have hrunE : (customFold cfg.custom_boundaries ([], none)
          (importDecls l)).1 ≠ [] := by
        rcases hrun with h | h
        · rw [hPrc] at h
          exact absurd rfl h
        · rw [hPeb] at h
          exact h
      have hno : itemsAnyTag (matchPred P.1.custom_boundary_config.isSome
          P.1.error_boundary_contexts P.1.react_suspense_contexts) P.2 = false := by
        rw [hPrc, hPeb, hPcbc, hP2]
        rw [itemsAnyTag_congr _ _ (fun n => matchPred_nil_eq _ _ n) l]
        exact h3 hrunE
      rw [visitItems_noMatch P.1 P.2 hno]
      have hPeta : ((P.1, P.2) : TransformVisitor × List ModuleItem) = P := rfl
      rw [hPeta, if_neg hc3, hP2]
    · rw [if_neg hrun, if_neg hc3, hP2]
  · rw [Bool.not_eq_true] at hg
    rw [hg]
    simp

/-- C9: running `process_transform` on its own output changes nothing:
the second run's first pass strips nothing new and collects no
react-Suspense context, its JSX pass (when it runs at all) matches no
tag, and no second tracker import is inserted. Stated for modules
whose import bindings carry resolver-assigned non-empty contexts and for
configurations that do not declare a custom boundary sourced from the
tracker package itself. -/
theorem c9_transform_idempotent (cfg : Config) (ctx : Context)
    (items : List ModuleItem) (hhyg : hygienicImports items)
    (htf : trackerFreeConfig cfg) :
    transform cfg ctx (transform cfg ctx items) = transform cfg ctx items := by
  generalize hOut : transform cfg ctx items = out
  unfold transform visit_mut_module_items at hOut
  by_cases hg : ((TransformVisitor.new cfg ctx).config.enabled.getD
      (decide ((TransformVisitor.new cfg ctx).context.env_name ≠
        Environment.development))) = true
  · rw [hg] at hOut
    simp only [Bool.not_true, Bool.false_eq_true, if_false, ite_false] at hOut
    rw [processImports_eq items (TransformVisitor.new cfg ctx) 0] at hOut
    revert hOut
    generalize hS : (({ TransformVisitor.new cfg ctx with
        react_suspense_contexts :=
          reactFold (TransformVisitor.new cfg ctx).react_suspense_contexts
            (importDecls items),
        react_import_position :=
          posFold (TransformVisitor.new cfg ctx).react_import_position 0 items,
        error_boundary_contexts := (customFold
          (TransformVisitor.new cfg ctx).config.custom_boundaries
          ((TransformVisitor.new cfg ctx).error_boundary_contexts,
            (TransformVisitor.new cfg ctx).custom_boundary_config)
          ((importDecls items).map stripDecl)).1,
        custom_boundary_config := (customFold
          (TransformVisitor.new cfg ctx).config.custom_boundaries
          ((TransformVisitor.new cfg ctx).error_boundary_contexts,
            (TransformVisitor.new cfg ctx).custom_boundary_config)
          ((importDecls items).map stripDecl)).2 },
      items.map stripItem) : TransformVisitor × List ModuleItem) = P
    intro hOut
    have hP2 : P.2 = items.map stripItem := by rw [← hS]
    have hP1eb : P.1.error_boundary_contexts =
        (customFold cfg.custom_boundaries ([], none)
          ((importDecls items).map stripDecl)).1 := by
      rw [← hS]; rfl
    have hP1cbc : P.1.custom_boundary_config =
        (customFold cfg.custom_boundaries ([], none)
          ((importDecls items).map stripDecl)).2 := by
      rw [← hS]; rfl
    have hP1has : P.1.has_suspense_elements = false := by rw [← hS]; rfl
    by_cases hrun : (P.1.react_suspense_contexts ≠ [] ∨
        P.1.error_boundary_contexts ≠ [])
    · rw [if_pos hrun] at hOut
      revert hOut
      generalize hQ : visitItems P.1 P.2 = Q
      intro hOut
      have hQmap : Q.2.map stripItem = Q.2 := by
        rw [← hQ]
        apply mapStrip_visitItems
        rw [hP2]
        exact mapStrip_mapStrip items
      have hQimp : importDecls Q.2 = (importDecls items).map stripDecl := by
        rw [← hQ, importDecls_visitItems, hP2, importDecls_mapStrip]
      have hQany : itemsAnyTag (customTagPred
          (customFold cfg.custom_boundaries ([], none)
            ((importDecls items).map stripDecl)).2.isSome
          (customFold cfg.custom_boundaries ([], none)
            ((importDecls items).map stripDecl)).1) Q.2 = false := by
        rw [← hQ]
        have h0 : (0 : Ctxt) ∉ P.1.error_boundary_contexts := by
          rw [hP1eb]
          exact customFold_nonzero ((importDecls items).map stripDecl)
            cfg.custom_boundaries ([], none) (by simp)
            (specLocalCtxts_stripDecls items hhyg)
        have hh := visitItems_customInert P.1 P.2 h0
        rw [hP1eb, hP1cbc] at hh
        exact hh
      by_cases hc3 : (Q.1.has_suspense_elements &&
          !Q.1.suspense_tracker_imported) = true
      · rw [if_pos hc3] at hOut
        have h1out : out.map stripItem = out := by
          rw [← hOut]
          show (insertAt _ create_suspense_tracker_import Q.2).map stripItem =
            insertAt _ create_suspense_tracker_import Q.2
          rw [map_insertAt, stripItem_trackerImport, hQmap]
        have h2out : reactFold [] (importDecls out) = [] := by
          rw [← hOut]
          show reactFold [] (importDecls
            (insertAt _ create_suspense_tracker_import Q.2)) = []
          apply reactFold_insertAt_tracker_of
          rw [hQimp]
          exact noSusp_stripDecls (importDecls items)
        have hECout : customFold cfg.custom_boundaries ([], none)
            (importDecls out) = customFold cfg.custom_boundaries ([], none)
            ((importDecls items).map stripDecl) := by
          rw [← hOut]
          show customFold cfg.custom_boundaries ([], none)
            (importDecls (insertAt _ create_suspense_tracker_import Q.2)) = _
          rw [customFold_insertAt_tracker cfg htf, hQimp]
        have h3out : (customFold cfg.custom_boundaries ([], none)
            (importDecls out)).1 ≠ [] →
            itemsAnyTag (customTagPred
              (customFold cfg.custom_boundaries ([], none)
                (importDecls out)).2.isSome
              (customFold cfg.custom_boundaries ([], none)
                (importDecls out)).1) out = false := by
          intro hne
          rw [hECout, ← hOut]
          show itemsAnyTag _ (insertAt _ create_suspense_tracker_import Q.2) = false
          rw [itemsAnyTag_insertAt_tracker]
          exact hQany
        exact transform_stable cfg ctx out h1out h2out h3out
      · rw [if_neg hc3] at hOut
        have h1out : out.map stripItem = out := by
          rw [← hOut]
          exact hQmap
        have h2out : reactFold [] (importDecls out) = [] := by
          rw [← hOut, hQimp]
          exact reactFold_strippedDecls _ []
        have h3out : (customFold cfg.custom_boundaries ([], none)
            (importDecls out)).1 ≠ [] →
            itemsAnyTag (customTagPred
              (customFold cfg.custom_boundaries ([], none)
                (importDecls out)).2.isSome
              (customFold cfg.custom_boundaries ([], none)
                (importDecls out)).1) out = false := by
          intro hne
          rw [← hOut, hQimp]
          exact hQany
        exact transform_stable cfg ctx out h1out h2out h3out
    · rw [if_neg hrun] at hOut
      have hc3 : ¬((P.1.has_suspense_elements &&
          !P.1.suspense_tracker_imported) = true) := by
        rw [hP1has]; simp
      rw [if_neg hc3] at hOut
      simp only [ne_eq, not_or, not_not] at hrun
      have h1out : out.map stripItem = out := by
        rw [← hOut, hP2]
        exact mapStrip_mapStrip items
      have h2out : reactFold [] (importDecls out) = [] := by
        rw [← hOut, hP2, importDecls_mapStrip]
        exact reactFold_strippedDecls _ []
      have h3out : (customFold cfg.custom_boundaries ([], none)
          (importDecls out)).1 ≠ [] →
          itemsAnyTag (customTagPred
            (customFold cfg.custom_boundaries ([], none)
              (importDecls out)).2.isSome
            (customFold cfg.custom_boundaries ([], none)
              (importDecls out)).1) out = false := by
        intro hne
        exfalso
        apply hne
        rw [← hOut, hP2, importDecls_mapStrip, ← hP1eb]
        exact hrun.2
      exact transform_stable cfg ctx out h1out h2out h3out
  · rw [Bool.not_eq_true] at hg
    rw [hg] at hOut
    simp only [Bool.not_false, if_true, ite_true] at hOut
    unfold transform visit_mut_module_items
    rw [hg]
    simp

/-- Witness for C9: the demo module (react Suspense import plus one
`<Suspense>` element) with explicit `enabled = true` in development is a
fixed point after one run. -/
theorem c9_transform_idempotent_witness :
    hygienicImports demoModule ∧ trackerFreeConfig cfgTrue ∧
    transform cfgTrue devContext (transform cfgTrue devContext demoModule) =
      transform cfgTrue devContext demoModule :=
  ⟨by unfold hygienicImports; decide, trivial,
    c9_transform_idempotent cfgTrue devContext demoModule
      (by unfold hygienicImports; decide) trivial⟩

end SwcSuspense